import Mathlib

/-!
Shallow embedding of the WARLab HR Datamart V2 synthetic-data generator
(`src/hr-datamart-v2/generators/`): config constants (`config.py`),
utility routines (`utils.py`), the employee timeline simulator
(`employee_timeline.py`), the rescind pass, the reference-catalog
generator (`reference_data.py`) and the feed projection
(`transactional_data.py`), together with proofs about the claims of the
specification.

Modelling conventions:
* Machine floats are embedded as exact rationals (`ℚ`); `round(x, 2)`
  is embedded as rounding `100*x` to the nearest integer.
* Python's single seeded `random.Random` instance is embedded as an
  oracle: a pair of streams (one rational-valued for `random`/`uniform`/
  `gauss` draws, one natural-valued for `randint`/`choice`/`shuffle`
  draws) plus a position counter advanced by every draw, so that the
  whole generator run is a pure function of the oracle.
* `datetime.date` values inside the simulation are embedded as a pair
  (month index, day of month), where month index 0 is the founding
  month (February 2016); `datetime.date` values in the growth-anchor
  table are embedded as absolute day numbers of the same calendar.
* String ids built from counters (`3NNNNNNN`, `P-NNNNNN`, `Gnn`,
  `JP_nnnn`, ...) are embedded as the underlying numbers (the
  formatting is injective); the empty-string sentinel for "no manager"
  is embedded as `Option.none`.
-/

/-- Truncation toward zero of a rational, the embedding of Python's
`int(float)` conversion. -/
def truncQ (q : ℚ) : ℤ := if 0 ≤ q then ⌊q⌋ else ⌈q⌉

/-- Embedding of Python's `round(x, 2)`: round `100*x` to the nearest
integer and divide back. -/
def round2 (q : ℚ) : ℚ := (round (q * 100) : ℤ) / 100

/-- Oracle model of the single seeded `random.Random` instance
(`utils.get_rng`): two value streams and a position counter. -/
structure Rng where
  qs : Nat → ℚ
  ns : Nat → Nat
  pos : Nat

/-- Draw one rational value (models `rng.random()` and the underlying
draw of `uniform` / `gauss`). -/
def rand_q (g : Rng) : ℚ × Rng :=
  (g.qs g.pos, ⟨g.qs, g.ns, g.pos + 1⟩)

/-- Draw one natural value (models the integer-level draws behind
`randint`, `choice` and `shuffle`). -/
def rand_n (g : Rng) : Nat × Rng :=
  (g.ns g.pos, ⟨g.qs, g.ns, g.pos + 1⟩)

/-- `rng.randint(a, b)`: an integer in `[a, b]` (inclusive). -/
def randint (a b : Nat) (g : Rng) : Nat × Rng :=
  let (n, g) := rand_n g
  (a + n % (b + 1 - a), g)

/-- `rng.uniform(a, b)`. -/
def uniform (a b : ℚ) (g : Rng) : ℚ × Rng :=
  let (q, g) := rand_q g
  (a + (b - a) * q, g)

/-- `rng.gauss(mu, sigma)`: the oracle draw is the standardised
deviate. -/
def gauss (mu sigma : ℚ) (g : Rng) : ℚ × Rng :=
  let (z, g) := rand_q g
  (mu + sigma * z, g)

/-- `utils.generate_wid`: `md5(str(rng.random()))`. The hex digest is a
deterministic function of the draw, so the WID is embedded as the draw
itself. -/
def generate_wid (g : Rng) : ℚ × Rng := rand_q g

/-- `rng.choice(xs)`: an element of `xs` (`none` models the `IndexError`
on an empty sequence). -/
def choice {α : Type} (xs : List α) (g : Rng) : Option α × Rng :=
  let (n, g) := rand_n g
  (xs.get? (n % xs.length), g)

/-- Index selection of `random.choices(..., weights=ws)`: first index
whose cumulative weight exceeds the scaled draw (defaulting to the last
index, as `bisect` with `hi = n-1` does). -/
def pick_from (q acc : ℚ) (i : Nat) : List ℚ → Nat
  | [] => i
  | [_] => i
  | w :: rest => if q < acc + w then i else pick_from q (acc + w) (i + 1) rest

/-- `utils.weighted_choice` and friends: one rational draw, scaled by
the total weight, selects the item. -/
def weighted_choice {α : Type} (items : List α) (w : α → ℚ) (g : Rng) :
    Option α × Rng :=
  let (q, g) := rand_q g
  (items.get? (pick_from (q * (items.map w).sum) 0 0 (items.map w)), g)

/-- Decode a permutation from one natural draw by repeatedly extracting
the `s % n`-th remaining element (fuel = list length). -/
def shuffle_fuel {α : Type} : Nat → Nat → List α → List α
  | 0, _, xs => xs
  | _ + 1, _, [] => []
  | f + 1, s, x :: xs =>
    let l := x :: xs
    match l.get? (s % l.length) with
    | some a => a :: shuffle_fuel f (s / l.length) (l.eraseIdx (s % l.length))
    | none => l

/-- `rng.shuffle(xs)`: one oracle draw decodes the permutation. -/
def shuffle {α : Type} (xs : List α) (g : Rng) : List α × Rng :=
  let (s, g) := rand_n g
  (shuffle_fuel xs.length s xs, g)

/-! ### Calendar

Month index 0 is February 2016 (the founding month, `COMPANY_FOUNDED =
2016-02-13`); absolute day numbers count from day 0 = 2016-01-31, so
the `d`-th day of month `m` has absolute number `monthStart m + d`. -/

def isLeap (y : Nat) : Bool := y % 4 == 0 && (y % 100 != 0 || y % 400 == 0)

def daysInCalMonth (y mo : Nat) : Nat :=
  if mo = 2 then (if isLeap y then 29 else 28)
  else if mo = 4 ∨ mo = 6 ∨ mo = 9 ∨ mo = 11 then 30
  else 31

/-- Calendar year of simulation month index `m`. -/
def yearOf (m : Nat) : Nat := 2016 + (m + 1) / 12

/-- Calendar month (1-12) of simulation month index `m`. -/
def monthOf (m : Nat) : Nat := (m + 1) % 12 + 1

/-- Number of days of simulation month `m`. -/
def monthLen (m : Nat) : Nat := daysInCalMonth (yearOf m) (monthOf m)

/-- Absolute day number of the last day of month `m - 1` (i.e. the day
before month `m` starts). -/
def monthStart : Nat → Nat
  | 0 => 0
  | m + 1 => monthStart m + monthLen m

/-- Absolute day number of day `d` (1-based) of month `m`. -/
def absDay (m d : Nat) : Nat := monthStart m + d

/-- Absolute day number of a calendar date on/after 2016-02-01. -/
def dateAbsDay (y mo d : Nat) : Nat := absDay ((y - 2016) * 12 + mo - 2) d

theorem monthLen_pos (m : Nat) : 0 < monthLen m := by
  unfold monthLen daysInCalMonth
  split
  · split <;> omega
  · split <;> omega

theorem monthStart_le_monthStart {m m' : Nat} (h : m ≤ m') :
    monthStart m ≤ monthStart m' := by
  induction m' with
  | zero =>
    have : m = 0 := by omega
    subst this
    exact le_refl _
  | succ k ih =>
    have hstep : monthStart (k + 1) = monthStart k + monthLen k := rfl
    rcases Nat.lt_or_ge m (k + 1) with hlt | hge
    · have h1 := ih (by omega)
      omega
    · have : m = k + 1 := by omega
      subst this
      exact le_refl _

theorem absDay_lt_absDay {m d m' d' : Nat} (hm : m < m')
    (hd : d ≤ monthLen m) (hd' : 1 ≤ d') : absDay m d < absDay m' d' := by
  have h1 : monthStart (m + 1) ≤ monthStart m' := monthStart_le_monthStart hm
  have h2 : monthStart (m + 1) = monthStart m + monthLen m := rfl
  unfold absDay
  omega

/-! ### Ordered-dict primitives

`active_employees` is a Python `dict` (insertion-ordered); it is
embedded as an association list: update replaces in place, insertion
appends, deletion filters. -/

def dict_get {β : Type} : List (Nat × β) → Nat → Option β
  | [], _ => none
  | (k, v) :: rest, key => if k = key then some v else dict_get rest key

def dict_set {β : Type} (d : List (Nat × β)) (k : Nat) (v : β) : List (Nat × β) :=
  if (dict_get d k).isSome then d.map (fun p => if p.1 = k then (k, v) else p)
  else d ++ [(k, v)]

def dict_del {β : Type} (d : List (Nat × β)) (k : Nat) : List (Nat × β) :=
  d.filter (fun p => p.1 ≠ k)

def dict_keys {β : Type} (d : List (Nat × β)) : List Nat := d.map (·.1)

theorem dict_get_mem {β : Type} {d : List (Nat × β)} {k : Nat} {v : β}
    (h : dict_get d k = some v) : (k, v) ∈ d := by
  induction d with
  | nil => simp [dict_get] at h
  | cons p rest ih =>
    obtain ⟨k', v'⟩ := p
    by_cases hk : k' = k
    · subst hk
      simp [dict_get] at h
      simp [h]
    · simp [dict_get, hk] at h
      exact List.mem_cons_of_mem _ (ih h)

theorem dict_get_none_not_mem {β : Type} {d : List (Nat × β)} {k : Nat}
    (h : dict_get d k = none) : ∀ p ∈ d, p.1 ≠ k := by
  induction d with
  | nil => intro p hp; simp at hp
  | cons q rest ih =>
    obtain ⟨a, b⟩ := q
    by_cases hak : a = k
    · simp [dict_get, hak] at h
    · simp [dict_get, hak] at h
      intro p hp
      rcases List.mem_cons.mp hp with rfl | hmem
      · simpa using hak
      · exact ih h p hmem

theorem mem_dict_set {β : Type} {d : List (Nat × β)} {k : Nat} {v : β}
    {p : Nat × β} (h : p ∈ dict_set d k v) :
    p = (k, v) ∨ (p ∈ d ∧ p.1 ≠ k) := by
  unfold dict_set at h
  split at h
  · obtain ⟨q, hq, hpq⟩ := List.mem_map.mp h
    by_cases hqk : q.1 = k
    · simp [hqk] at hpq
      exact Or.inl hpq.symm
    · simp [hqk] at hpq
      subst hpq
      exact Or.inr ⟨hq, hqk⟩
  · rename_i hnone
    have hnone' : dict_get d k = none := by
      cases hd : dict_get d k with
      | none => rfl
      | some w => rw [hd] at hnone; simp at hnone
    rcases List.mem_append.mp h with h1 | h1
    · exact Or.inr ⟨h1, dict_get_none_not_mem hnone' p h1⟩
    · simp at h1
      exact Or.inl h1

theorem dict_get_del_ne {β : Type} (d : List (Nat × β)) (k k' : Nat)
    (h : k' ≠ k) : dict_get (dict_del d k) k' = dict_get d k' := by
  induction d with
  | nil => rfl
  | cons p rest ih =>
    obtain ⟨a, b⟩ := p
    by_cases hak : a = k
    · subst hak
      simp [dict_del, dict_get, Ne.symm h]
      simpa [dict_del] using ih
    · by_cases hak' : a = k'
      · subst hak'
        simp [dict_del, dict_get, hak]
      · simp [dict_del, dict_get, hak, hak']
        simpa [dict_del] using ih

theorem mem_dict_del {β : Type} {d : List (Nat × β)} {k : Nat}
    {p : Nat × β} (h : p ∈ dict_del d k) : p ∈ d ∧ p.1 ≠ k := by
  unfold dict_del at h
  have := List.of_mem_filter h
  refine ⟨List.mem_of_mem_filter h, ?_⟩
  simpa using this

/-! ### Configuration (`config.py`)

Grade ids `Gnn` are embedded as the number `nn`; company ids as 1..8 in
list order; location ids as 1..9 (CA) and 101..107 (US). -/

/-- One band of `config.GRADES` (ids `G01`..`G15` ↦ 1..15). -/
structure Grade where
  id : Nat
  gmin : ℚ
  gmid : ℚ
  gmax : ℚ
  profile_id : Nat
  deriving Repr, DecidableEq

/-- One row of `config.CAREER_ACTIONS`. -/
structure CareerAction where
  action : String
  code : String
  reason : String
  reason_code : String
  weight : ℚ
  deriving Repr, DecidableEq

/-- One row of `config.COMPANIES` (with its `config.COMPANY_COUNTRY`
entry). -/
structure Company where
  id : Nat
  country : String
  deriving Repr, DecidableEq

/-- One row of `config.LOCATIONS_CA` / `config.LOCATIONS_US`. -/
structure Location where
  id : Nat
  country : String
  weight : ℚ
  deriving Repr, DecidableEq

/-- One row of `config.WORK_MODELS`. -/
structure WorkModel where
  wm_type : String
  weight_pre_2020 : ℚ
  weight_post_2020 : ℚ
  deriving Repr, DecidableEq

/-- One row of `config.WORKER_TYPES`. -/
structure WorkerType where
  w_type : String
  sub_type : String
  weight : ℚ
  deriving Repr, DecidableEq

/-- One row of `config.TIME_TYPES`. -/
structure TimeType where
  name : String
  weight : ℚ
  fte : ℚ
  hours : ℚ
  deriving Repr, DecidableEq

/-- The configuration value consumed by the simulator: the constants of
`config.py` that the timeline engine reads.  The simulator is stated
over an arbitrary configuration and the claims are instantiated at
`realConfig` below. -/
structure SimConfig where
  anchors : List (Nat × Int)
  attrition : List (Nat × ℚ)
  attrition_default : ℚ
  term_mix : List (String × ℚ)
  vol_reasons : List (String × ℚ)
  inv_reasons : List (String × ℚ)
  regrettable_rate : ℚ
  grades : List Grade
  grade_weights : List (Nat × ℚ)
  career_actions : List CareerAction
  avg_months_between_events : ℚ
  annual_comp_change_rate : ℚ
  avg_annual_raise_pct : ℚ
  raise_std_dev : ℚ
  avg_loa_days : Nat
  rescind_rate : ℚ
  companies : List Company
  company_weights : List (Nat × ℚ)
  locations_ca : List Location
  locations_us : List Location
  work_models : List WorkModel
  worker_types : List WorkerType
  time_types : List TimeType
  founding_day : Nat
  total_months : Nat

/-- `config.GROWTH_ANCHORS`, dates as absolute day numbers. -/
def realAnchors : List (Nat × Int) :=
  [(dateAbsDay 2016 2 28, 150), (dateAbsDay 2016 6 30, 600),
   (dateAbsDay 2016 12 31, 2000), (dateAbsDay 2017 6 30, 3500),
   (dateAbsDay 2017 12 31, 5000), (dateAbsDay 2018 6 30, 6500),
   (dateAbsDay 2018 12 31, 8000), (dateAbsDay 2019 6 30, 9000),
   (dateAbsDay 2019 12 31, 9500), (dateAbsDay 2020 6 30, 10000),
   (dateAbsDay 2020 12 31, 10000), (dateAbsDay 2021 12 31, 10200),
   (dateAbsDay 2022 12 31, 9800), (dateAbsDay 2023 12 31, 10100),
   (dateAbsDay 2024 12 31, 10300), (dateAbsDay 2025 12 31, 10000),
   (dateAbsDay 2026 2 13, 10050)]

/-- `config.ANNUAL_ATTRITION_RATE`. -/
def realAttrition : List (Nat × ℚ) :=
  [(2016, 6/100), (2017, 8/100), (2018, 10/100), (2019, 12/100),
   (2020, 14/100), (2021, 15/100), (2022, 16/100), (2023, 15/100),
   (2024, 14/100), (2025, 13/100), (2026, 13/100)]

/-- `config.TERM_REASON_MIX` (Python dicts preserve insertion order). -/
def realTermMix : List (String × ℚ) :=
  [("Voluntary", 58/100), ("Involuntary", 25/100), ("Retirement", 10/100),
   ("Death", 1/100), ("End of Contract", 6/100)]

/-- `config.VOLUNTARY_REASONS` (code, weight). -/
def realVolReasons : List (String × ℚ) :=
  [("VOL-BETTER_OPP", 40/100), ("VOL-RELOCATION", 12/100),
   ("VOL-CAREER_CHG", 15/100), ("VOL-COMPENSATION", 13/100),
   ("VOL-PERSONAL", 10/100), ("VOL-RETURN_SCHOOL", 5/100),
   ("VOL-OTHER", 5/100)]

/-- `config.INVOLUNTARY_REASONS` (code, weight). -/
def realInvReasons : List (String × ℚ) :=
  [("INV-PERFORMANCE", 40/100), ("INV-RESTRUCTURE", 25/100),
   ("INV-MISCONDUCT", 15/100), ("INV-POSITION_ELIM", 12/100),
   ("INV-OTHER", 8/100)]

/-- `config.GRADES`: the 15-band ladder (`profile_id` `GP_nn` ↦ `nn`). -/
def realGrades : List Grade :=
  [⟨1, 42000, 50000, 58000, 1⟩, ⟨2, 52000, 62000, 72000, 2⟩,
   ⟨3, 65000, 78000, 91000, 3⟩, ⟨4, 78000, 95000, 112000, 4⟩,
   ⟨5, 92000, 112000, 132000, 5⟩, ⟨6, 105000, 130000, 155000, 6⟩,
   ⟨7, 125000, 155000, 185000, 7⟩, ⟨8, 145000, 180000, 215000, 8⟩,
   ⟨9, 170000, 215000, 260000, 9⟩, ⟨10, 200000, 255000, 310000, 10⟩,
   ⟨11, 240000, 310000, 380000, 11⟩, ⟨12, 300000, 390000, 480000, 12⟩,
   ⟨13, 380000, 480000, 580000, 13⟩, ⟨14, 450000, 575000, 700000, 14⟩,
   ⟨15, 550000, 750000, 950000, 15⟩]

/-- `config.GRADE_WEIGHTS`. -/
def realGradeWeights : List (Nat × ℚ) :=
  [(1, 12/100), (2, 14/100), (3, 15/100), (4, 13/100), (5, 12/100),
   (6, 10/100), (7, 8/100), (8, 5/100), (9, 4/100), (10, 3/100),
   (11, 2/100), (12, 1/100), (13, 5/1000), (14, 3/1000), (15, 2/1000)]

/-- `config.CAREER_ACTIONS`. -/
def realCareerActions : List CareerAction :=
  [⟨"Change Job", "CHG_JOB", "Promotion", "CHG_PROMO", 20/100⟩,
   ⟨"Change Job", "CHG_JOB", "Lateral Move", "CHG_LAT", 12/100⟩,
   ⟨"Change Job", "CHG_JOB", "Transfer", "CHG_XFER", 10/100⟩,
   ⟨"Change Job", "CHG_JOB", "Demotion", "CHG_DEMO", 3/100⟩,
   ⟨"Data Change", "DAT_CHG", "Compensation Change", "DAT_COMP", 30/100⟩,
   ⟨"Data Change", "DAT_CHG", "Location Change", "DAT_LOC", 5/100⟩,
   ⟨"Data Change", "DAT_CHG", "Org Change", "DAT_ORG", 5/100⟩,
   ⟨"Leave of Absence", "LOA", "Leave of Absence", "LOA_GEN", 8/100⟩,
   ⟨"Return from Leave", "RFL", "Return from Leave", "RFL_GEN", 7/100⟩]

/-- `config.COMPANIES` with `config.COMPANY_COUNTRY` (ids in list
order: WARLAB_HOLD=1, WARLAB_CA=2, WARLAB_US=3, WARLAB_WM=4,
WARLAB_CAP=5, WARLAB_INS=6, WARLAB_TECH=7, WARLAB_USADV=8). -/
def realCompanies : List Company :=
  [⟨1, "CA"⟩, ⟨2, "CA"⟩, ⟨3, "US"⟩, ⟨4, "CA"⟩, ⟨5, "CA"⟩, ⟨6, "CA"⟩,
   ⟨7, "CA"⟩, ⟨8, "US"⟩]

/-- `config.COMPANY_WEIGHTS`. -/
def realCompanyWeights : List (Nat × ℚ) :=
  [(1, 2/100), (2, 25/100), (3, 20/100), (4, 12/100), (5, 10/100),
   (6, 8/100), (7, 15/100), (8, 8/100)]

/-- `config.LOCATIONS_CA` (ids 1..9 in list order; only the fields the
simulator reads). -/
def realLocationsCA : List Location :=
  [⟨1, "CA", 25/100⟩, ⟨2, "CA", 8/100⟩, ⟨3, "CA", 7/100⟩,
   ⟨4, "CA", 5/100⟩, ⟨5, "CA", 4/100⟩, ⟨6, "CA", 3/100⟩,
   ⟨7, "CA", 2/100⟩, ⟨8, "CA", 2/100⟩, ⟨9, "CA", 4/100⟩]

/-- `config.LOCATIONS_US` (ids 101..107 in list order). -/
def realLocationsUS : List Location :=
  [⟨101, "US", 12/100⟩, ⟨102, "US", 6/100⟩, ⟨103, "US", 4/100⟩,
   ⟨104, "US", 3/100⟩, ⟨105, "US", 3/100⟩, ⟨106, "US", 2/100⟩,
   ⟨107, "US", 5/100⟩]

/-- `config.WORK_MODELS`. -/
def realWorkModels : List WorkModel :=
  [⟨"On-Site", 85/100, 20/100⟩, ⟨"Remote", 5/100, 35/100⟩,
   ⟨"Hybrid", 10/100, 45/100⟩]

/-- `config.WORKER_TYPES`. -/
def realWorkerTypes : List WorkerType :=
  [⟨"Employee", "Regular", 88/100⟩, ⟨"Employee", "Fixed Term", 7/100⟩,
   ⟨"Contingent Worker", "Contractor", 5/100⟩]

/-- `config.TIME_TYPES`. -/
def realTimeTypes : List TimeType :=
  [⟨"Full_Time", 92/100, 1, 75/2⟩, ⟨"Part_Time", 8/100, 1/2, 75/4⟩]

/-- The actual configuration of `config.py`.  `founding_day = 13`
(2016-02-13) and `total_months = 121` (the month loop runs while
`current ≤ DATA_END_DATE = 2026-02-13`, i.e. February 2016 through
February 2026). -/
def realConfig : SimConfig where
  anchors := realAnchors
  attrition := realAttrition
  attrition_default := 14/100
  term_mix := realTermMix
  vol_reasons := realVolReasons
  inv_reasons := realInvReasons
  regrettable_rate := 35/100
  grades := realGrades
  grade_weights := realGradeWeights
  career_actions := realCareerActions
  avg_months_between_events := 18
  annual_comp_change_rate := 85/100
  avg_annual_raise_pct := 35/1000
  raise_std_dev := 15/1000
  avg_loa_days := 90
  rescind_rate := 15/1000
  companies := realCompanies
  company_weights := realCompanyWeights
  locations_ca := realLocationsCA
  locations_us := realLocationsUS
  work_models := realWorkModels
  worker_types := realWorkerTypes
  time_types := realTimeTypes
  founding_day := 13
  total_months := 121

/-! ### Demographic tables read globally by `_gen_profile` -/

/-- `config.GENDER_DISTRIBUTION`. -/
def realGenderDistribution : List (String × ℚ) :=
  [("Male", 52/100), ("Female", 45/100), ("Non-Binary", 2/100),
   ("Not Disclosed", 1/100)]

/-- `config.RACE_ETHNICITY_DISTRIBUTION`. -/
def realRaceDistribution : List (String × ℚ) :=
  [("White", 55/100), ("Asian", 15/100), ("Black or African American", 8/100),
   ("Hispanic or Latino", 7/100), ("South Asian", 6/100),
   ("Indigenous", 3/100), ("Two or More Races", 3/100),
   ("Not Disclosed", 3/100)]

/-- `config.GENERATION_BANDS` (name, first year, last year, weight). -/
def realGenerationBands : List (String × Nat × Nat × ℚ) :=
  [("Baby Boomer", 1946, 1964, 12/100), ("Gen X", 1965, 1980, 28/100),
   ("Millennial", 1981, 1996, 42/100), ("Gen Z", 1997, 2012, 18/100)]

/-! ### Data model (`employee_timeline.py` dataclasses)

`EmployeeEvent` keeps the fields of the Python dataclass that the
simulator itself reads or that the claims mention; the remaining
constant-copied string fields are omitted.  `effective_date` is the
pair (`eff_month`, `eff_day`); `entry_datetime` is `entry_stamp`,
seconds since day 0. -/

structure EmployeeEvent where
  employee_id : Nat
  eff_month : Nat
  eff_day : Nat
  entry_stamp : Nat
  sequence_number : Nat
  transaction_wid : ℚ
  transaction_type : String
  action : String
  action_code : String
  action_reason_code : String
  position_id : Nat
  job_profile_id : Nat
  grade_id : Nat
  location_id : Nat
  worker_type : String
  worker_sub_type : String
  time_type : String
  scheduled_fte : ℚ
  scheduled_weekly_hours : ℚ
  work_model_type : String
  company_id : Nat
  cost_center_id : Nat
  sup_org_id : Nat
  matrix_org_id : Nat
  pay_range_min : ℚ
  pay_range_mid : ℚ
  pay_range_max : ℚ
  base_pay : ℚ
  base_pay_currency : String
  comp_grade : Nat
  comp_grade_profile : Nat
  worker_status : String
  active : Bool
  hire_month : Nat
  hire_day : Nat
  terminated : Bool
  termination_category : String
  termination_involuntary : Bool
  regrettable_termination : Bool
  not_eligible_for_hire : Bool
  manager_id : Option Nat
  expected_return : Option Nat
  deriving Repr, DecidableEq

/-- Deterministic stand-in for a `Faker` instance seeded with
`seed_instance(s)`: the `pos`-th name of the seeded sequence is
embedded as the token `s + pos`. -/
structure Faker where
  seed : Nat
  pos : Nat
  deriving Repr, DecidableEq

def faker_name (f : Faker) : Nat × Faker := (f.seed + f.pos, ⟨f.seed, f.pos + 1⟩)

/-- `EmployeeProfile` (INT6031), reduced to the draw-dependent fields. -/
structure EmployeeProfile where
  employee_id : Nat
  worker_workday_id : ℚ
  gender : String
  dob_y : Nat
  dob_mo : Nat
  dob_d : Nat
  first_name : Nat
  last_name : Nat
  preferred_first_name : Nat
  race_ethnicity : String
  military_status : String
  junior_senior : String
  product_sector_group : String
  generation : String
  deriving Repr, DecidableEq

/-- One row of `self.position_assignments` (INT6032 input). -/
structure PositionRow where
  position_id : Nat
  eff_month : Nat
  eff_day : Nat
  sup_org_id : Nat
  job_profile_id : Nat
  location_id : Nat
  deriving Repr, DecidableEq

/-- One rescinded-transaction record (INT270). -/
structure RescindRow where
  workday_id : ℚ
  idp_table : String
  rescinded_moment : Nat
  deriving Repr, DecidableEq

/-- One job-profile row as the timeline generator uses it
(`Job_Profile_ID` `JP_nnnn` ↦ `nnnn`; `Compensation_Grade` `Gnn` ↦
`nn`). -/
structure JobProfile where
  id : Nat
  grade : Nat
  deriving Repr, DecidableEq

/-- The reference-data lookups the timeline generator keeps
(`dept_ids` is already filtered to `Department_Level ≥ 2`). -/
structure RefData where
  job_profiles : List JobProfile
  dept_ids : List Nat
  cc_ids : List Nat
  matrix_org_ids : List Nat
  deriving Repr, DecidableEq

/-- The mutable state of `EmployeeTimelineGenerator`. -/
structure SimState where
  gen : Rng
  faker_ca : Faker
  faker_us : Faker
  employee_seq : Nat
  position_seq : Nat
  active_employees : List (Nat × EmployeeEvent)
  all_events : List EmployeeEvent
  profiles : List EmployeeProfile
  rescinded_wids : List RescindRow
  position_assignments : List PositionRow

/-! ### Utility routines (`utils.py`) -/

/-- `utils.interpolate_headcount`: the scan over adjacent anchor pairs.
Returns `none` when no bracketing pair matched. -/
def interp_scan (d : Nat) : List (Nat × Int) → Option Int
  | (d1, h1) :: (d2, h2) :: rest =>
    if d1 ≤ d ∧ d ≤ d2 then
      let days_total : Int := (d2 : Int) - (d1 : Int)
      let days_elapsed : Int := (d : Int) - (d1 : Int)
      if days_total = 0 then some h1
      else some (truncQ ((h1 : ℚ) + ((h2 : ℚ) - (h1 : ℚ)) *
        ((days_elapsed : ℚ) / (days_total : ℚ))))
    else interp_scan d ((d2, h2) :: rest)
  | _ => none

/-- `utils.interpolate_headcount` (the empty anchor list would raise
`IndexError` in Python; it is mapped to 0). -/
def interpolate_headcount (anchors : List (Nat × Int)) (d : Nat) : Int :=
  match anchors with
  | [] => 0
  | a0 :: rest =>
    let lastA := (a0 :: rest).getLastD a0
    if d ≤ a0.1 then a0.2
    else if lastA.1 ≤ d then lastA.2
    else
      match interp_scan d (a0 :: rest) with
      | some h => h
      | none => lastA.2

/-- `utils.random_date_in_month` with `earliest = COMPANY_FOUNDED`:
the founding day only truncates the founding month (month index 0). -/
def random_date_in_month (cfg : SimConfig) (m : Nat) (g : Rng) : Nat × Rng :=
  let first := if m = 0 then cfg.founding_day else 1
  let last := monthLen m
  if last < first then (last, g)
  else
    let (k, g) := randint 0 (last - first) g
    (first + k, g)

/-- `utils.entry_date_from_effective`: effective date plus a small lag,
in seconds. -/
def entry_date_from_effective (m d : Nat) (g : Rng) : Nat × Rng :=
  let (lag_days, g) := randint 0 5 g
  let (lag_hours, g) := randint 8 17 g
  let (lag_minutes, g) := randint 0 59 g
  let (lag_seconds, g) := randint 0 59 g
  ((absDay m d + lag_days) * 86400 + lag_hours * 3600 + lag_minutes * 60 +
    lag_seconds, g)

/-- `config.COMPANY_COUNTRY.get(company_id, "CA")`. -/
def company_country (cfg : SimConfig) (cid : Nat) : String :=
  match cfg.companies.find? (fun c => c.id == cid) with
  | some c => c.country
  | none => "CA"

/-- `utils.location_for_company`. -/
def location_for_company (cfg : SimConfig) (cid : Nat) (g : Rng) :
    Option Location × Rng :=
  let country := company_country cfg cid
  let locs := if country = "CA" then cfg.locations_ca else cfg.locations_us
  weighted_choice locs (·.weight) g

/-- `utils.salary_for_grade`: clamped normal around the band midpoint.
An unknown grade returns 50000.0 without consuming a draw. -/
def salary_for_grade (cfg : SimConfig) (grade_id : Nat) (g : Rng) : ℚ × Rng :=
  match cfg.grades.find? (fun gr => gr.id == grade_id) with
  | none => (50000, g)
  | some gr =>
    let (salary, g) := gauss gr.gmid ((gr.gmax - gr.gmin) / 4) g
    let salary := max gr.gmin (min gr.gmax salary)
    (round2 salary, g)

/-- `utils.next_grade` (an id absent from the ladder returns `none`,
as the `ValueError` handler does). -/
def next_grade (cfg : SimConfig) (current_grade_id : Nat) (up : Bool) :
    Option Nat :=
  let grade_ids := cfg.grades.map (·.id)
  match grade_ids.indexOf? current_grade_id with
  | none => none
  | some idx =>
    if up then
      if idx + 1 < grade_ids.length then grade_ids.get? (idx + 1) else none
    else
      if 0 < idx then grade_ids.get? (idx - 1) else none

/-! ### Timeline simulator (`employee_timeline.py`) -/

/-- `ANNUAL_ATTRITION_RATE.get(year, 0.14)`. -/
def attrition_rate (cfg : SimConfig) (y : Nat) : ℚ :=
  match cfg.attrition.find? (fun p => p.1 == y) with
  | some p => p.2
  | none => cfg.attrition_default

/-- `_calc_monthly_terms`. -/
def calc_monthly_terms (cfg : SimConfig) (y : Nat) (current_hc : Nat)
    (g : Rng) : Int × Rng :=
  let annual_rate := attrition_rate cfg y
  let monthly_rate := annual_rate / 12
  let (j, g) := uniform (7/10) (13/10) g
  let monthly_rate := monthly_rate * j
  (truncQ ((current_hc : ℚ) * monthly_rate), g)

/-- `_pick_job_profile_for_grade`. -/
def pick_job_profile_for_grade (ref : RefData) (grade_id : Nat) (g : Rng) :
    Option JobProfile × Rng :=
  let profiles := ref.job_profiles.filter (fun jp => jp.grade == grade_id)
  if profiles.isEmpty then
    if ref.job_profiles.isEmpty then (none, g)
    else choice ref.job_profiles g
  else choice profiles g

/-- `_pick_manager`: scan the active employees for ids with strictly
higher grade rank (`int(grade_id[1:]) - 1` ↦ `grade_id - 1`), capped at
the first 100 candidates; empty result models the `""` fallback. -/
def pick_manager (active : List (Nat × EmployeeEvent))
    (employee_grade_id : Nat) (g : Rng) : Option Nat × Rng :=
  let grade_idx := employee_grade_id - 1
  let min_mgr_grade_idx := grade_idx + 1
  let candidates :=
    (active.filter (fun p => min_mgr_grade_idx ≤ p.2.grade_id - 1)).map (·.1)
  if candidates.isEmpty then (none, g)
  else choice (candidates.take 100) g

/-- `_clone_event`: deep copy with new effective date, entry stamp,
fresh WID, and incremented sequence number. -/
def clone_event (source : EmployeeEvent) (m d : Nat) (g : Rng) :
    EmployeeEvent × Rng :=
  let (entry, g) := entry_date_from_effective m d g
  let (wid, g) := generate_wid g
  ({ source with
      eff_month := m
      eff_day := d
      entry_stamp := entry
      transaction_wid := wid
      sequence_number := source.sequence_number + 1 }, g)

/-- The per-employee body of `_process_terminations` (the loop over the
selected prefix of the shuffled id list). -/
def term_one (cfg : SimConfig) (m : Nat) (s : SimState) (emp_id : Nat) :
    SimState :=
  match dict_get s.active_employees emp_id with
  | none => s
  | some last_event =>
    if last_event.eff_month = m then s
    else
      let (term_day, g) := random_date_in_month cfg m s.gen
      let (cat?, g) := weighted_choice cfg.term_mix (·.2) g
      let cat := (cat?.map (·.1)).getD ""
      let (reason_code, involuntary, regrettable, g) :=
        if cat = "Voluntary" then
          let (rt, g) := weighted_choice cfg.vol_reasons (·.2) g
          let (q, g) := rand_q g
          ((rt.map (·.1)).getD "", false, q < cfg.regrettable_rate, g)
        else if cat = "Involuntary" then
          let (rt, g) := weighted_choice cfg.inv_reasons (·.2) g
          ((rt.map (·.1)).getD "", true, false, g)
        else if cat = "Retirement" then ("TER-RET", false, false, g)
        else if cat = "Death" then ("TER-DEA", false, false, g)
        else ("TER-EOC", false, false, g)
      let (event, g) := clone_event last_event m term_day g
      let (_pay_through_lag, g) := randint 0 14 g
      let (not_elig, g) :=
        if involuntary then
          let (q, g) := rand_q g
          (q < 3/10, g)
        else (false, g)
      let g := if cat = "Voluntary" then (randint 14 30 g).2 else g
      let event := { event with
        transaction_type := "Termination"
        action := "Termination"
        action_code := "TER"
        action_reason_code := reason_code
        worker_status := "Terminated"
        active := false
        terminated := true
        termination_category := cat
        termination_involuntary := involuntary
        regrettable_termination := regrettable
        not_eligible_for_hire := not_elig }
      { s with
        gen := g
        all_events := s.all_events ++ [event]
        active_employees := dict_del s.active_employees emp_id }

/-- `_process_terminations`. -/
def process_terminations (cfg : SimConfig) (m : Nat) (count : Nat)
    (s : SimState) : SimState :=
  if s.active_employees.isEmpty then s
  else
    let emp_ids := dict_keys s.active_employees
    let (emp_ids, g) := shuffle emp_ids s.gen
    let s := { s with gen := g }
    let count := min count emp_ids.length
    (emp_ids.take count).foldl (term_one cfg m) s

/-- `_apply_comp_change`. -/
def apply_comp_change (cfg : SimConfig) (m : Nat) (emp_id : Nat)
    (s : SimState) : SimState :=
  match dict_get s.active_employees emp_id with
  | none => s
  | some last_event =>
    let (eff_day, g) := random_date_in_month cfg m s.gen
    let (event, g) := clone_event last_event m eff_day g
    let event := { event with
      transaction_type := "Data Change"
      action := "Data Change"
      action_code := "DAT_CHG"
      action_reason_code := "DAT_COMP" }
    let (z, g) := gauss cfg.avg_annual_raise_pct cfg.raise_std_dev g
    let raise_pct := max 0 z
    let new_base := round2 (last_event.base_pay * (1 + raise_pct))
    let new_base :=
      match cfg.grades.find? (fun gr => gr.id == event.grade_id) with
      | some gr => max gr.gmin (min gr.gmax new_base)
      | none => new_base
    let event := { event with base_pay := new_base }
    { s with
      gen := g
      all_events := s.all_events ++ [event]
      active_employees := dict_set s.active_employees emp_id event }

/-- The reason-code dispatch of `_apply_career_action` (the body of
the `if/elif` chain applying the targeted field overrides). -/
def career_override (cfg : SimConfig) (ref : RefData) (m eff_day : Nat)
    (act : CareerAction) (last_event event : EmployeeEvent) (g : Rng) :
    EmployeeEvent × Rng :=
  let code := act.reason_code
      if code = "CHG_PROMO" then
        match next_grade cfg last_event.grade_id true with
        | none => (event, g)
        | some new_grade =>
          let event := { event with grade_id := new_grade, comp_grade := new_grade }
          let (jp, g) := pick_job_profile_for_grade ref new_grade g
          let event :=
            match jp with
            | some p => { event with job_profile_id := p.id }
            | none => event
          let (bp, g) := salary_for_grade cfg new_grade g
          let event := { event with base_pay := bp }
          let event :=
            match cfg.grades.find? (fun gr => gr.id == new_grade) with
            | some gr =>
              { event with
                pay_range_min := gr.gmin
                pay_range_mid := gr.gmid
                pay_range_max := gr.gmax
                comp_grade_profile := gr.profile_id }
            | none => event
          (event, g)
      else if code = "CHG_DEMO" then
        match next_grade cfg last_event.grade_id false with
        | none => (event, g)
        | some new_grade =>
          let event := { event with grade_id := new_grade, comp_grade := new_grade }
          let (bp, g) := salary_for_grade cfg new_grade g
          ({ event with base_pay := bp }, g)
      else if code = "CHG_LAT" then
        let (jp, g) := pick_job_profile_for_grade ref event.grade_id g
        let event :=
          match jp with
          | some p => { event with job_profile_id := p.id }
          | none => event
        let (q, g) := rand_q g
        if q < 1/2 ∧ ¬ ref.dept_ids.isEmpty then
          let (dep?, g) := choice ref.dept_ids g
          ({ event with sup_org_id := dep?.getD event.sup_org_id }, g)
        else (event, g)
      else if code = "CHG_XFER" then
        let (cid?, g) := choice (cfg.companies.map (·.id)) g
        let company_id := cid?.getD event.company_id
        let (loc?, g) := location_for_company cfg company_id g
        let event := { event with company_id := company_id }
        let event :=
          match loc? with
          | some loc => { event with location_id := loc.id }
          | none => event
        let (event, g) :=
          if ¬ ref.dept_ids.isEmpty then
            let (dep?, g) := choice ref.dept_ids g
            ({ event with sup_org_id := dep?.getD event.sup_org_id }, g)
          else (event, g)
        if ¬ ref.cc_ids.isEmpty then
          let (cc?, g) := choice ref.cc_ids g
          ({ event with cost_center_id := cc?.getD event.cost_center_id }, g)
        else (event, g)
      else if code = "DAT_LOC" then
        let (loc?, g) := location_for_company cfg event.company_id g
        let event :=
          match loc? with
          | some loc => { event with location_id := loc.id }
          | none => event
        let wm_weights :=
          if 2020 ≤ yearOf m then cfg.work_models.map (fun wm => (wm.wm_type, wm.weight_post_2020))
          else cfg.work_models.map (fun wm => (wm.wm_type, wm.weight_pre_2020))
        let (wm?, g) := weighted_choice wm_weights (·.2) g
        let event :=
          match wm? with
          | some wm => { event with work_model_type := wm.1 }
          | none => event
        (event, g)
      else if code = "DAT_ORG" then
        let (event, g) :=
          if ¬ ref.dept_ids.isEmpty then
            let (dep?, g) := choice ref.dept_ids g
            ({ event with sup_org_id := dep?.getD event.sup_org_id }, g)
          else (event, g)
        if ¬ ref.cc_ids.isEmpty then
          let (cc?, g) := choice ref.cc_ids g
          ({ event with cost_center_id := cc?.getD event.cost_center_id }, g)
        else (event, g)
      else if code = "LOA_GEN" then
        ({ event with
            worker_status := "On Leave"
            expected_return := some (absDay m eff_day + cfg.avg_loa_days) }, g)
      else if code = "RFL_GEN" then
        ({ event with
            worker_status := "Active"
            active := true
            expected_return := none }, g)
      else (event, g)

/-- `_apply_career_action`: clone the latest event, stamp the action
fields, apply the reason-code dispatch, append and update the roster. -/
def apply_career_action (cfg : SimConfig) (ref : RefData) (m : Nat)
    (emp_id : Nat) (act : CareerAction) (s : SimState) : SimState :=
  match dict_get s.active_employees emp_id with
  | none => s
  | some last_event =>
    let (eff_day, g) := random_date_in_month cfg m s.gen
    let (event, g) := clone_event last_event m eff_day g
    let event := { event with
      transaction_type := act.action
      action := act.action
      action_code := act.code
      action_reason_code := act.reason_code }
    let (event, g) := career_override cfg ref m eff_day act last_event event g
    { s with
      gen := g
      all_events := s.all_events ++ [event]
      active_employees := dict_set s.active_employees emp_id event }

/-- The career-event probability draw at the end of
`_process_career_events`' loop body. -/
def career_event_draw (cfg : SimConfig) (ref : RefData) (m emp_id : Nat)
    (s : SimState) : SimState :=
  let (q, g) := rand_q s.gen
  let s := { s with gen := g }
  if q < 1 / cfg.avg_months_between_events then
    let (a?, g) := weighted_choice cfg.career_actions (·.weight) s.gen
    let s := { s with gen := g }
    match a? with
    | some act => apply_career_action cfg ref m emp_id act s
    | none => s
  else s

/-- The per-employee body of `_process_career_events`: skip employees
whose latest event is less than 3 months old; in January-March first
try the annual compensation change. -/
def career_one (cfg : SimConfig) (ref : RefData) (m : Nat) (s : SimState)
    (emp_id : Nat) : SimState :=
  match dict_get s.active_employees emp_id with
  | none => s
  | some last_event =>
    let months_since_hire : Int := (m : Int) - (last_event.eff_month : Int)
    if months_since_hire < 3 then s
    else
      if monthOf m = 1 ∨ monthOf m = 2 ∨ monthOf m = 3 then
        let (q, g) := rand_q s.gen
        let s := { s with gen := g }
        if q < cfg.annual_comp_change_rate / 3 then
          apply_comp_change cfg m emp_id s
        else career_event_draw cfg ref m emp_id s
      else career_event_draw cfg ref m emp_id s

/-- `_process_career_events`. -/
def process_career_events (cfg : SimConfig) (ref : RefData) (m : Nat)
    (s : SimState) : SimState :=
  (dict_keys s.active_employees).foldl (career_one cfg ref m) s

/-- Lexicographic comparison of (year, month, day) triples, the
embedding of `datetime.date` ordering. -/
def date_lt (a b : Nat × Nat × Nat) : Bool :=
  a.1 < b.1 || (a.1 == b.1 && (a.2.1 < b.2.1 ||
    (a.2.1 == b.2.1 && a.2.2 < b.2.2)))

/-- `utils.generate_dob`: generation band, then year/month/day draws,
clamped to ages 18-65 at hire (dates compared lexicographically). -/
def generate_dob (hire_y hire_mo hire_d : Nat) (g : Rng) :
    (Nat × Nat × Nat) × Rng :=
  let (band?, g) := weighted_choice realGenerationBands (·.2.2.2) g
  let band := (band?.map (fun b => (b.2.1, b.2.2.1))).getD (1946, 2012)
  let (birth_year, g) := randint band.1 band.2 g
  let (birth_month, g) := randint 1 12 g
  let (birth_day, g) := randint 1 28 g
  let dob := (birth_year, birth_month, birth_day)
  let safe_day := min hire_d 28
  let min_dob := (hire_y - 65, hire_mo, safe_day)
  let max_dob := (hire_y - 18, hire_mo, safe_day)
  let dob :=
    if date_lt max_dob dob then (max_dob.1, birth_month, min birth_day 28) else dob
  let dob :=
    if date_lt dob min_dob then (min_dob.1, birth_month, min birth_day 28) else dob
  (dob, g)

/-- `_generation_from_birth_year`. -/
def generation_from_birth_year (birth_year : Nat) : String :=
  match realGenerationBands.find?
      (fun b => b.2.1 ≤ birth_year && birth_year ≤ b.2.2.1) with
  | some b => b.1
  | none => "Unknown"

/-- `_gen_profile` (INT6031 row): demographic draws threaded through
the shared generator, names through the country's seeded Faker. -/
def gen_profile (emp_id : Nat) (worker_wid : ℚ) (m hire_day : Nat)
    (country : String) (s : SimState) : SimState :=
  let use_ca := country = "CA"
  let (gender?, g) := weighted_choice realGenderDistribution (·.2) s.gen
  let gender := (gender?.map (·.1)).getD ""
  let fk := if use_ca then s.faker_ca else s.faker_us
  let (first_name, fk) := faker_name fk
  let (last_name, fk) := faker_name fk
  let (dob, g) := generate_dob (yearOf m) (monthOf m) hire_day g
  let generation := generation_from_birth_year dob.1
  let (race?, g) := weighted_choice realRaceDistribution (·.2) g
  let race := (race?.map (·.1)).getD ""
  let (qpref, g) := rand_q g
  let (preferred_first, fk) :=
    if 1/10 < qpref then (first_name, fk)
    else faker_name fk
  let (mil?, g) := choice ["Not Applicable", "Not Applicable", "Veteran",
    "Active Duty"] g
  let (js?, g) := choice ["", "Jr", "Sr", ""] g
  let (psg?, g) := choice ["", "Retail", "Institutional", "Wealth", ""] g
  let profile : EmployeeProfile :=
    { employee_id := emp_id
      worker_workday_id := worker_wid
      gender := gender
      dob_y := dob.1
      dob_mo := dob.2.1
      dob_d := dob.2.2
      first_name := first_name
      last_name := last_name
      preferred_first_name := preferred_first
      race_ethnicity := race
      military_status := mil?.getD ""
      junior_senior := js?.getD ""
      product_sector_group := psg?.getD ""
      generation := generation }
  { s with
    gen := g
    faker_ca := if use_ca then fk else s.faker_ca
    faker_us := if use_ca then s.faker_us else fk
    profiles := s.profiles ++ [profile] }

/-- Default grade used for the `GRADES[0]` fallback on an empty
ladder. -/
def grade_default : Grade := ⟨0, 0, 0, 0, 0⟩

/-- One iteration of the `_process_hires` loop: counter increments,
catalog selections, salary, manager scan, event, position assignment,
profile. -/
def hire_one (cfg : SimConfig) (ref : RefData) (m : Nat) (s : SimState) :
    SimState :=
  let s := { s with
    employee_seq := s.employee_seq + 1
    position_seq := s.position_seq + 1 }
  let emp_id := s.employee_seq
  let pos_id := s.position_seq
  let (wid, g) := generate_wid s.gen
  let (worker_wid, g) := generate_wid g
  let (hire_day, g) := random_date_in_month cfg m g
  let (comp?, g) := weighted_choice cfg.companies
    (fun c => ((cfg.company_weights.find? (fun p => p.1 == c.id)).map (·.2)).getD (1/10)) g
  let company_id := (comp?.map (·.id)).getD 0
  let country := company_country cfg company_id
  let (loc?, g) := location_for_company cfg company_id g
  let (grade?, g) := weighted_choice cfg.grade_weights (·.2) g
  let grade_id := (grade?.map (·.1)).getD 0
  let grade_obj :=
    match cfg.grades.find? (fun gr => gr.id == grade_id) with
    | some gr => gr
    | none => cfg.grades.headD grade_default
  let (jp?, g) := pick_job_profile_for_grade ref grade_id g
  let (jp?, g) :=
    match jp? with
    | some p => (some p, g)
    | none => choice ref.job_profiles g
  let (dept_id, g) :=
    if ¬ ref.dept_ids.isEmpty then
      let (d?, g) := choice ref.dept_ids g
      (d?.getD 0, g)
    else (0, g)
  let (cc_id, g) :=
    if ¬ ref.cc_ids.isEmpty then
      let (c?, g) := choice ref.cc_ids g
      (c?.getD 0, g)
    else (0, g)
  let (qmx, g) := rand_q g
  let (matrix_id, g) :=
    if qmx < 3/10 then
      let (mx?, g) := choice ref.matrix_org_ids g
      (mx?.getD 0, g)
    else (0, g)
  let (wt?, g) := weighted_choice cfg.worker_types (·.weight) g
  let (tt?, g) := weighted_choice cfg.time_types (·.weight) g
  let wm_weights :=
    if 2020 ≤ yearOf m then cfg.work_models.map (fun wm => (wm.wm_type, wm.weight_post_2020))
    else cfg.work_models.map (fun wm => (wm.wm_type, wm.weight_pre_2020))
  let (wm?, g) := weighted_choice wm_weights (·.2) g
  let (base_pay, g) := salary_for_grade cfg grade_id g
  let base_pay := if country = "US" then round2 (base_pay * (105/100)) else base_pay
  let (manager_id, g) := pick_manager s.active_employees grade_id g
  let (entry, g) := entry_date_from_effective m hire_day g
  let event : EmployeeEvent :=
    { employee_id := emp_id
      eff_month := m
      eff_day := hire_day
      entry_stamp := entry
      sequence_number := 1
      transaction_wid := wid
      transaction_type := "Hire"
      action := "Hire"
      action_code := "HIR"
      action_reason_code := "HIR_NEW"
      position_id := pos_id
      job_profile_id := (jp?.map (·.id)).getD 0
      grade_id := grade_id
      location_id := (loc?.map (·.id)).getD 0
      worker_type := (wt?.map (·.w_type)).getD "Employee"
      worker_sub_type := (wt?.map (·.sub_type)).getD "Regular"
      time_type := (tt?.map (·.name)).getD "Full_Time"
      scheduled_fte := (tt?.map (·.fte)).getD 1
      scheduled_weekly_hours := (tt?.map (·.hours)).getD (75/2)
      work_model_type := (wm?.map (·.1)).getD "On-Site"
      company_id := company_id
      cost_center_id := cc_id
      sup_org_id := dept_id
      matrix_org_id := matrix_id
      pay_range_min := grade_obj.gmin
      pay_range_mid := grade_obj.gmid
      pay_range_max := grade_obj.gmax
      base_pay := base_pay
      base_pay_currency := if country = "US" then "USD" else "CAD"
      comp_grade := grade_id
      comp_grade_profile := grade_obj.profile_id
      worker_status := "Active"
      active := true
      hire_month := m
      hire_day := hire_day
      terminated := false
      termination_category := ""
      termination_involuntary := false
      regrettable_termination := false
      not_eligible_for_hire := false
      manager_id := manager_id
      expected_return := none }
  let s := { s with
    gen := g
    all_events := s.all_events ++ [event]
    active_employees := dict_set s.active_employees emp_id event
    position_assignments := s.position_assignments ++
      [{ position_id := pos_id
         eff_month := m
         eff_day := hire_day
         sup_org_id := dept_id
         job_profile_id := (jp?.map (·.id)).getD 0
         location_id := (loc?.map (·.id)).getD 0 }] }
  gen_profile emp_id worker_wid m hire_day country s

/-- `_process_hires`. -/
def process_hires (cfg : SimConfig) (ref : RefData) (m count : Nat)
    (s : SimState) : SimState :=
  (List.range count).foldl (fun s _ => hire_one cfg ref m s) s

/-- The absolute day number of the end of month `m` (the argument
`utils.month_end` passes to the interpolation). -/
def month_end_abs (m : Nat) : Nat := absDay m (monthLen m)

/-- One iteration of the driver loop of `generate_all`: terminations,
career events, hires. -/
def step_month (cfg : SimConfig) (ref : RefData) (s : SimState) (m : Nat) :
    SimState :=
  let target_hc := interpolate_headcount cfg.anchors (month_end_abs m)
  let current_hc := s.active_employees.length
  let (n_terms, g) := calc_monthly_terms cfg (yearOf m) current_hc s.gen
  let s := { s with gen := g }
  let s :=
    if 0 < current_hc ∧ 0 < n_terms then
      process_terminations cfg m n_terms.toNat s
    else s
  let s := process_career_events cfg ref m s
  let current_hc2 : Int := (s.active_employees.length : Int)
  let n_hires := max 0 (target_hc - current_hc2)
  let n_hires := n_hires * 21 / 20
  if 0 < n_hires then process_hires cfg ref m n_hires.toNat s else s

/-- The month loop of `generate_all`, from month index `m` for `fuel`
months. -/
def run_months (cfg : SimConfig) (ref : RefData) : Nat → Nat → SimState → SimState
  | _, 0, s => s
  | m, fuel + 1, s => run_months cfg ref (m + 1) fuel (step_month cfg ref s m)

/-- The initial `EmployeeTimelineGenerator` state (fresh counters,
Fakers seeded with `SEED` and `SEED + 1`). -/
def init_state (g : Rng) : SimState :=
  { gen := g
    faker_ca := ⟨20160213, 0⟩
    faker_us := ⟨20160214, 0⟩
    employee_seq := 0
    position_seq := 0
    active_employees := []
    all_events := []
    profiles := []
    rescinded_wids := []
    position_assignments := [] }

/-- `EmployeeTimelineGenerator.generate_all`: the full monthly
simulation from the founding month. -/
def generate_all (cfg : SimConfig) (ref : RefData) (g : Rng) : SimState :=
  run_months cfg ref 0 cfg.total_months (init_state g)

/-! ### Rescind pass (`generate_rescinded`) -/

/-- `_table_code_for_type`. -/
def table_code_for_type (txn_type : String) (g : Rng) : String × Rng :=
  if txn_type = "Hire" ∨ txn_type = "Termination" ∨ txn_type = "Change Job" ∨
      txn_type = "Data Change" ∨ txn_type = "Leave of Absence" ∨
      txn_type = "Return from Leave" then
    let (c?, g) := choice ["INT095E", "INT096", "INT098"] g
    (c?.getD "INT095E", g)
  else ("INT095E", g)

/-- The loop body of `generate_rescinded`. -/
def rescind_one (s : SimState) (event : EmployeeEvent) : SimState :=
  let (code, g) := table_code_for_type event.transaction_type s.gen
  { s with
    gen := g
    rescinded_wids := s.rescinded_wids ++
      [{ workday_id := event.transaction_wid
         idp_table := code
         rescinded_moment := event.entry_stamp }] }

/-- `generate_rescinded`: mark `int(len(all_events) * RESCIND_RATE)`
of the shuffled non-Hire events as rescinded. -/
def generate_rescinded (cfg : SimConfig) (s : SimState) : SimState :=
  let n_rescind := (truncQ ((s.all_events.length : ℚ) * cfg.rescind_rate)).toNat
  let candidates := s.all_events.filter (fun e => e.transaction_type ≠ "Hire")
  let (candidates, g) := shuffle candidates s.gen
  let s := { s with gen := g }
  (candidates.take n_rescind).foldl rescind_one s

/-! ### Reference catalog generator (`reference_data.py`)

Ids: job profiles `JP_nnnn` ↦ `nnnn`; top-level departments ↦ 1..11 in
`TOP_LEVEL_DEPTS` order; sub-departments ↦ `1000 + dept_seq`; cost
centers `CC_nnnn` ↦ `nnnn`; matrix organizations ↦ 1..15. -/

/-- `config.JOB_FUNCTIONS`: function code and profile names. -/
def realJobFunctions : List (String × List String) :=
  [("FN_TECH",
    ["Software Engineer", "Senior Software Engineer", "Staff Engineer",
     "Data Engineer", "Data Scientist", "Cloud Architect", "DevOps Engineer",
     "QA Engineer", "IT Support Specialist", "Cybersecurity Analyst",
     "Solutions Architect", "Product Manager - Tech",
     "Technical Project Manager", "Database Administrator",
     "Network Engineer", "Systems Administrator",
     "Business Intelligence Analyst"]),
   ("FN_FIN",
    ["Financial Analyst", "Senior Financial Analyst", "Accountant",
     "Senior Accountant", "Controller", "Treasury Analyst", "Tax Specialist",
     "Audit Analyst", "Financial Planning Analyst",
     "Accounts Payable Specialist"]),
   ("FN_RISK",
    ["Risk Analyst", "Senior Risk Analyst", "Credit Risk Analyst",
     "Market Risk Analyst", "Operational Risk Analyst", "Compliance Analyst",
     "AML Analyst", "Regulatory Affairs Specialist", "Risk Manager"]),
   ("FN_OPS",
    ["Operations Analyst", "Operations Specialist",
     "Trade Operations Analyst", "Settlement Specialist",
     "Client Services Representative", "Operations Manager",
     "Process Improvement Analyst", "Project Manager"]),
   ("FN_HR",
    ["HR Business Partner", "Recruiter", "Senior Recruiter",
     "Compensation Analyst", "Benefits Specialist", "HRIS Analyst",
     "Learning & Development Specialist", "Employee Relations Specialist"]),
   ("FN_LEGAL",
    ["Corporate Counsel", "Paralegal", "Legal Analyst", "Regulatory Counsel",
     "Contract Specialist"]),
   ("FN_SALES",
    ["Relationship Manager", "Financial Advisor", "Investment Advisor",
     "Sales Associate", "Client Relationship Manager",
     "Business Development Manager", "Private Banker", "Mortgage Specialist",
     "Insurance Advisor", "Wealth Advisor"]),
   ("FN_MKT",
    ["Marketing Analyst", "Brand Manager", "Digital Marketing Specialist",
     "Communications Specialist", "Content Writer"]),
   ("FN_EXEC",
    ["Chief Executive Officer", "Chief Financial Officer",
     "Chief Technology Officer", "Chief Risk Officer",
     "Chief Operating Officer", "Chief Human Resources Officer",
     "Chief Legal Officer", "Chief Marketing Officer"]),
   ("FN_ADMIN",
    ["Executive Assistant", "Office Administrator", "Facilities Coordinator",
     "Receptionist", "Administrative Assistant", "Office Manager"]),
   ("FN_INVEST",
    ["Portfolio Manager", "Investment Analyst", "Research Analyst",
     "Quantitative Analyst", "Trader", "Fund Accountant",
     "Performance Analyst", "ESG Analyst"])]

/-- `config.TOP_LEVEL_DEPTS` with `config.SUB_DEPT_COUNTS`: (division
id, sub-department count), in list order. -/
def realTopLevelDepts : List (Nat × Nat) :=
  [(1, 3), (2, 12), (3, 25), (4, 15), (5, 20), (6, 8), (7, 6), (8, 18),
   (9, 6), (10, 12), (11, 8)]

/-- The grade-index heuristic of `_gen_job_profiles`: executives get
G13-G15, "Senior"/"Manager"/"Director" profiles G06-G11, the rest
G01-G06. -/
def contains_word (pat name : String) : Bool :=
  decide (pat.toList <:+: name.toList)

def jp_grade_draw (fcode name : String) (g : Rng) : Nat × Rng :=
  if fcode = "FN_EXEC" then randint 12 14 g
  else if contains_word "Senior" name || contains_word "Manager" name ||
      contains_word "Director" name then randint 5 10 g
  else randint 0 5 g

/-- One profile row of `_gen_job_profiles` (WID draw, grade heuristic,
flag draws). -/
def gen_job_profile_one (acc : Nat × List JobProfile × Rng)
    (fcode name : String) : Nat × List JobProfile × Rng :=
  let (jp_seq, rows, g) := acc
  let (_wid, g) := generate_wid g
  let (grade_idx, g) := jp_grade_draw fcode name g
  let (_critical, g) := choice ["Y", "N", "N", "N"] g
  let (_difficult, g) := choice ["Y", "N", "N", "N", "N"] g
  let (_exempt_ca, g) := choice ["Exempt", "Non-Exempt"] g
  let (_exempt_us, g) := choice ["Exempt", "Non-Exempt"] g
  (jp_seq + 1, rows ++ [⟨jp_seq, grade_idx + 1⟩], g)

/-- `_gen_job_profiles`. -/
def gen_job_profiles (g : Rng) : List JobProfile × Rng :=
  let acc := realJobFunctions.foldl
    (fun acc fn => fn.2.foldl (fun acc name => gen_job_profile_one acc fn.1 name) acc)
    ((1, [], g) : Nat × List JobProfile × Rng)
  (acc.2.1, acc.2.2)

/-- One row of `_gen_job_classifications` (the draws of the row dict,
in evaluation order). -/
def gen_job_class_one (acc : List (Nat × Nat × Nat) × Rng)
    (jp : JobProfile) : List (Nat × Nat × Nat) × Rng :=
  let (rows, g) := acc
  let (aap, g) := randint 1 20 g
  let (_bonus, g) := choice ["Eligible", "Not Eligible", "Eligible", "Eligible"] g
  let (_customer, g) := choice ["Y", "N"] g
  let (_eeo, g) := choice ["1.1", "1.2", "2.1", "2.2", "3.1", "4.1", "5.1",
    "6.1", "7.1", "8.1", "9.1"] g
  let (qloan, g) := rand_q g
  let g := if 1/20 < qloan then g else (randint 100 999 g).2
  let (_noc, g) := choice ["11100", "11101", "11102", "11200", "11201",
    "12100", "12101", "21110", "21211", "21220", "21230", "21231", "21232",
    "21310", "41200", "41201", "41400", "51100", "51101", "62100", "64100"] g
  let (occ, g) := randint 1000 9999 g
  let (_recruit, g) := choice ["Internal", "External", "Agency", "Referral"] g
  let (_soc, g) := choice ["11-1011", "11-1021", "13-1111", "13-2011",
    "13-2051", "15-1252", "15-1256", "15-2051", "41-3021", "43-3031",
    "43-4051"] g
  (rows ++ [(jp.id, aap, occ)], g)

/-- `_gen_job_classifications`. -/
def gen_job_classifications (jps : List JobProfile) (g : Rng) :
    List (Nat × Nat × Nat) × Rng :=
  jps.foldl gen_job_class_one ([], g)

/-- One row of `_gen_locations`: WID, street number, street name,
suite number (evaluated before the4-way choice). -/
def gen_location_one (acc : List ℚ × Rng) (_loc : Location) : List ℚ × Rng :=
  let (wids, g) := acc
  let (wid, g) := generate_wid g
  let (_streetno, g) := randint 1 999 g
  let (_street, g) := choice ["Bay", "King", "Queen", "Front", "Adelaide",
    "Wall", "Broad", "State"] g
  let (_suite, g) := randint 100 9999 g
  let (_addr2, g) := choice ["", "", "", "Suite"] g
  (wids ++ [wid], g)

/-- `_gen_locations` over `config.ALL_LOCATIONS`. -/
def gen_locations (cfg : SimConfig) (g : Rng) : List ℚ × Rng :=
  (cfg.locations_ca ++ cfg.locations_us).foldl gen_location_one ([], g)

/-- `_gen_companies`: one WID per company. -/
def gen_companies (cfg : SimConfig) (g : Rng) : List ℚ × Rng :=
  cfg.companies.foldl
    (fun acc _c =>
      let (wids, g) := acc
      let (wid, g) := generate_wid g
      (wids ++ [wid], g))
    ([], g)

/-- `_gen_cost_centers`: `max(2, int(n_sub * 1.5))` rows per division,
one WID draw each; ids are the global sequence. -/
def gen_cost_centers (g : Rng) : List Nat × Rng :=
  let acc := realTopLevelDepts.foldl
    (fun (acc : Nat × List Nat × Rng) dept =>
      let n_cc := max 2 (dept.2 * 3 / 2)
      (List.range n_cc).foldl
        (fun (acc : Nat × List Nat × Rng) _ =>
          let (cc_seq, ids, g) := acc
          let (_wid, g) := generate_wid g
          (cc_seq + 1, ids ++ [cc_seq], g))
        acc)
    ((1, [], g) : Nat × List Nat × Rng)
  (acc.2.1, acc.2.2)

/-- `config.MATRIX_ORGS` ids (no draws). -/
def gen_matrix_orgs : List Nat := List.range' 1 15

/-- The sub-department level split of `_gen_departments`: ~60% level 2,
~30% level 3, ~10% level 4. -/
def sub_dept_level (i n_sub : Nat) : Nat :=
  if i < n_sub * 6 / 10 then 2
  else if i < n_sub * 9 / 10 then 3
  else 4

/-- `_gen_departments`: a WID per division, then per sub-department a
WID, a company-country choice and a location draw; rows are (id,
level). -/
def gen_departments (cfg : SimConfig) (g : Rng) : List (Nat × Nat) × Rng :=
  let acc := realTopLevelDepts.foldl
    (fun (acc : Nat × List (Nat × Nat) × Rng) dept =>
      let (dept_seq, rows, g) := acc
      let (_wid, g) := generate_wid g
      let rows := rows ++ [(dept.1, 1)]
      (List.range dept.2).foldl
        (fun (acc : Nat × List (Nat × Nat) × Rng) i =>
          let (dept_seq, rows, g) := acc
          let (_wid, g) := generate_wid g
          let level := sub_dept_level i dept.2
          let (cid?, g) := choice (cfg.companies.map (·.id)) g
          let (_loc?, g) := location_for_company cfg (cid?.getD 0) g
          (dept_seq + 1, rows ++ [(1000 + dept_seq, level)], g))
        ((dept_seq, rows, g) : Nat × List (Nat × Nat) × Rng))
    ((1, [], g) : Nat × List (Nat × Nat) × Rng)
  (acc.2.1, acc.2.2)

/-- The reference feeds produced by `ReferenceDataGenerator.generate_all`
(reduced to the identifying data each row carries). -/
structure Catalog where
  grades_rows : List Grade
  job_profiles : List JobProfile
  job_class_rows : List (Nat × Nat × Nat)
  location_wids : List ℚ
  company_wids : List ℚ
  cost_center_ids : List Nat
  matrix_org_ids : List Nat
  dept_rows : List (Nat × Nat)
  deriving Repr, DecidableEq

/-- `ReferenceDataGenerator.generate_all`, in source order. -/
def gen_reference_data (cfg : SimConfig) (g : Rng) : Catalog × Rng :=
  let grades_rows := cfg.grades
  let (jps, g) := gen_job_profiles g
  let (jcs, g) := gen_job_classifications jps g
  let (locw, g) := gen_locations cfg g
  let (compw, g) := gen_companies cfg g
  let (ccs, g) := gen_cost_centers g
  let morgs := gen_matrix_orgs
  let (depts, g) := gen_departments cfg g
  (⟨grades_rows, jps, jcs, locw, compw, ccs, morgs, depts⟩, g)

/-- The lookups `EmployeeTimelineGenerator.__init__` extracts from the
reference generator (`dept_ids` filtered to level ≥ 2). -/
def ref_data_of_catalog (cat : Catalog) : RefData :=
  { job_profiles := cat.job_profiles
    dept_ids := (cat.dept_rows.filter (fun p => 2 ≤ p.2)).map (·.1)
    cc_ids := cat.cost_center_ids
    matrix_org_ids := cat.matrix_org_ids }

/-! ### Feed projection (`transactional_data.py`)

Pure per-record maps, reduced to the join keys and the fields the
claims mention. -/

/-- One INT0095E (worker job) row. -/
structure JobRow where
  employee_id : Nat
  transaction_wid : ℚ
  eff_month : Nat
  eff_day : Nat
  entry_stamp : Nat
  transaction_type : String
  position_id : Nat
  worker_status : String
  active : Bool
  terminated : Bool
  manager_id : Option Nat
  job_profile_id : Nat
  sequence_number : Nat
  deriving Repr, DecidableEq

/-- `_event_to_095e`. -/
def event_to_095e (e : EmployeeEvent) : JobRow :=
  { employee_id := e.employee_id
    transaction_wid := e.transaction_wid
    eff_month := e.eff_month
    eff_day := e.eff_day
    entry_stamp := e.entry_stamp
    transaction_type := e.transaction_type
    position_id := e.position_id
    worker_status := e.worker_status
    active := e.active
    terminated := e.terminated
    manager_id := e.manager_id
    job_profile_id := e.job_profile_id
    sequence_number := e.sequence_number }

/-- One INT0096 (worker organization) row. -/
structure OrgRow where
  employee_id : Nat
  transaction_wid : ℚ
  transaction_type : String
  sequence_number : Nat
  organization_id : Nat
  organization_type : String
  deriving Repr, DecidableEq

/-- `_event_to_096`: the 1:3 fan-out (Cost Center, Company,
Supervisory) sharing the event's WID and sequence number. -/
def event_to_096 (e : EmployeeEvent) : List OrgRow :=
  [{ employee_id := e.employee_id
     transaction_wid := e.transaction_wid
     transaction_type := e.transaction_type
     sequence_number := e.sequence_number
     organization_id := e.cost_center_id
     organization_type := "Cost_Center" },
   { employee_id := e.employee_id
     transaction_wid := e.transaction_wid
     transaction_type := e.transaction_type
     sequence_number := e.sequence_number
     organization_id := e.company_id
     organization_type := "Company" },
   { employee_id := e.employee_id
     transaction_wid := e.transaction_wid
     transaction_type := e.transaction_type
     sequence_number := e.sequence_number
     organization_id := e.sup_org_id
     organization_type := "Supervisory" }]

/-- One INT0098 (worker compensation) row. -/
structure CompRow where
  employee_id : Nat
  transaction_wid : ℚ
  transaction_type : String
  comp_grade : Nat
  pay_range_min : ℚ
  pay_range_mid : ℚ
  pay_range_max : ℚ
  base_pay : ℚ
  base_pay_currency : String
  deriving Repr, DecidableEq

/-- `_event_to_098`. -/
def event_to_098 (e : EmployeeEvent) : CompRow :=
  { employee_id := e.employee_id
    transaction_wid := e.transaction_wid
    transaction_type := e.transaction_type
    comp_grade := e.comp_grade
    pay_range_min := e.pay_range_min
    pay_range_mid := e.pay_range_mid
    pay_range_max := e.pay_range_max
    base_pay := e.base_pay
    base_pay_currency := e.base_pay_currency }

/-- One INT6031 (worker profile) row. -/
structure ProfRow where
  employee_id : Nat
  worker_workday_id : ℚ
  gender : String
  race_ethnicity : String
  generation : String
  deriving Repr, DecidableEq

/-- `_profile_to_6031`. -/
def profile_to_6031 (p : EmployeeProfile) : ProfRow :=
  { employee_id := p.employee_id
    worker_workday_id := p.worker_workday_id
    gender := p.gender
    race_ethnicity := p.race_ethnicity
    generation := p.generation }

/-- `ReferenceDataGenerator.generate_positions`: one row per unique
position id, first occurrence wins. -/
def generate_positions : List PositionRow → List Nat → List PositionRow
  | [], _ => []
  | ep :: rest, seen =>
    if ep.position_id ∈ seen then generate_positions rest seen
    else ep :: generate_positions rest (ep.position_id :: seen)

/-! ### The full pipeline (`generate_all.py`) -/

/-- All output collections the run produces. -/
structure Output where
  catalog : Catalog
  events : List EmployeeEvent
  profiles : List EmployeeProfile
  rescinded : List RescindRow
  positions : List PositionRow
  rows_job : List JobRow
  rows_org : List OrgRow
  rows_comp : List CompRow
  rows_profile : List ProfRow

/-- The orchestrated pipeline of `generate_all.py`: one seeded
generator threaded through the reference catalog, the timeline
simulation, the rescind pass, and the pure feed projection. -/
def pipeline (cfg : SimConfig) (g : Rng) : Output :=
  let (cat, g) := gen_reference_data cfg g
  let ref := ref_data_of_catalog cat
  let s := generate_all cfg ref g
  let s := generate_rescinded cfg s
  { catalog := cat
    events := s.all_events
    profiles := s.profiles
    rescinded := s.rescinded_wids
    positions := generate_positions s.position_assignments []
    rows_job := s.all_events.map event_to_095e
    rows_org := s.all_events.flatMap event_to_096
    rows_comp := s.all_events.map event_to_098
    rows_profile := s.profiles.map profile_to_6031 }

/-! ### Claims -/

/-- The all-zero oracle, used to instantiate witnesses. -/
def zeroRng : Rng := ⟨fun _ => 0, fun _ => 0, 0⟩

/-- C1: Determinism — two runs of the full generation pipeline
(reference catalog, timeline simulation, rescind pass, feed projection)
with identical seed/oracle and identical configuration produce
identical output collections, element for element and in the same
order. -/
theorem c1_pipeline_deterministic (cfg₁ cfg₂ : SimConfig) (g₁ g₂ : Rng)
    (hcfg : cfg₁ = cfg₂) (hg : g₁ = g₂) :
    (pipeline cfg₁ g₁).catalog = (pipeline cfg₂ g₂).catalog ∧
    (pipeline cfg₁ g₁).events = (pipeline cfg₂ g₂).events ∧
    (pipeline cfg₁ g₁).profiles = (pipeline cfg₂ g₂).profiles ∧
    (pipeline cfg₁ g₁).rescinded = (pipeline cfg₂ g₂).rescinded ∧
    (pipeline cfg₁ g₁).positions = (pipeline cfg₂ g₂).positions ∧
    (pipeline cfg₁ g₁).rows_job = (pipeline cfg₂ g₂).rows_job ∧
    (pipeline cfg₁ g₁).rows_org = (pipeline cfg₂ g₂).rows_org ∧
    (pipeline cfg₁ g₁).rows_comp = (pipeline cfg₂ g₂).rows_comp ∧
    (pipeline cfg₁ g₁).rows_profile = (pipeline cfg₂ g₂).rows_profile := by
  subst hcfg
  subst hg
  exact ⟨rfl, rfl, rfl, rfl, rfl, rfl, rfl, rfl, rfl⟩

/-- C1 witness: the determinism theorem applied at the real
configuration and a concrete oracle. -/
theorem c1_pipeline_deterministic_witness :
    (pipeline realConfig zeroRng).events = (pipeline realConfig zeroRng).events ∧
    (pipeline realConfig zeroRng).rescinded = (pipeline realConfig zeroRng).rescinded :=
  ⟨(c1_pipeline_deterministic realConfig realConfig zeroRng zeroRng rfl rfl).2.1,
   (c1_pipeline_deterministic realConfig realConfig zeroRng zeroRng rfl rfl).2.2.2.1⟩

/-- The bracketing lemma for the scan of `interpolate_headcount`: on a
strictly date-sorted anchor list whose first date is strictly before
`d` and whose last date is strictly after `d`, the scan stops at a
bracketing adjacent pair and returns the truncated linear
interpolation. -/
theorem interp_scan_bracket (d : Nat) :
    ∀ l : List (Nat × Int), l ≠ [] →
    l.Chain' (fun a b => a.1 < b.1) →
    (∀ a0 ∈ l.head?, a0.1 < d) →
    (∀ aL ∈ l.getLast?, d < aL.1) →
    ∃ i a1 a2, l.get? i = some a1 ∧ l.get? (i + 1) = some a2 ∧
      a1.1 ≤ d ∧ d ≤ a2.1 ∧
      interp_scan d l = some (truncQ ((a1.2 : ℚ) +
        ((a2.2 : ℚ) - (a1.2 : ℚ)) *
        (((d : ℚ) - (a1.1 : ℚ)) / ((a2.1 : ℚ) - (a1.1 : ℚ))))) := by
  intro l
  induction l with
  | nil => intro h; exact absurd rfl h
  | cons a tail ih =>
    intro _ hchain hhead hlast
    match tail, hchain with
    | [], _ =>
      have h1 := hhead a (by simp)
      have h2 := hlast a (by simp)
      omega
    | b :: rest, hchain =>
      have hab : a.1 < b.1 := (List.chain'_cons.mp hchain).1
      have hchain' : (b :: rest).Chain' (fun x y => x.1 < y.1) :=
        (List.chain'_cons.mp hchain).2
      have had : a.1 < d := hhead a (by simp)
      by_cases hdb : d ≤ b.1
      · refine ⟨0, a, b, by simp, by simp, by omega, hdb, ?_⟩
        obtain ⟨a1, a2⟩ := a
        obtain ⟨b1, b2⟩ := b
        simp only [interp_scan]
        have hcond : a1 ≤ d ∧ d ≤ b1 := ⟨by omega, hdb⟩
        rw [if_pos hcond]
        have hne : (b1 : Int) - (a1 : Int) ≠ 0 := by
          simp at hab
          omega
        rw [if_neg hne]
        congr 1
        congr 1
        push_cast
        ring
      · have hlast' : ∀ aL ∈ (b :: rest).getLast?, d < aL.1 := by
          intro aL haL
          exact hlast aL (by rwa [List.getLast?_cons_cons])
        have hhead' : ∀ a0 ∈ (b :: rest).head?, a0.1 < d := by
          intro a0 ha0
          simp at ha0
          subst ha0
          omega
        obtain ⟨i, a1, a2, hg1, hg2, hle1, hle2, hscan⟩ :=
          ih (by simp) hchain' hhead' hlast'
        refine ⟨i + 1, a1, a2, by simpa using hg1, by simpa using hg2,
          hle1, hle2, ?_⟩
        obtain ⟨x1, x2⟩ := a
        obtain ⟨y1, y2⟩ := b
        simp only [interp_scan]
        rw [if_neg (by omega)]
        exact hscan

/-- On a strictly date-sorted nonempty chain, the head's date is
strictly below the last element's date (when the tail is nonempty). -/
theorem chain_lt_head_getLast {a0 x : Nat × Int} :
    ∀ {rest : List (Nat × Int)},
    (a0 :: rest).Chain' (fun p q => p.1 < q.1) → rest ≠ [] →
    (a0 :: rest).getLast? = some x → a0.1 < x.1 := by
  intro rest
  induction rest generalizing a0 with
  | nil => intro _ h; exact absurd rfl h
  | cons b rest' ih =>
    intro hsort _ hx
    have hab : a0.1 < b.1 := (List.chain'_cons.mp hsort).1
    have hsort' : (b :: rest').Chain' (fun p q => p.1 < q.1) :=
      (List.chain'_cons.mp hsort).2
    match rest', hx, hsort' with
    | [], hx, _ =>
      have hbx : b = x := by
        rw [List.getLast?_cons_cons] at hx
        simpa using hx
      have hbx1 : b.1 = x.1 := by rw [hbx]
      omega
    | c :: rest'', hx, hsort' =>
      have hx' : (b :: c :: rest'').getLast? = some x := by
        rwa [List.getLast?_cons_cons] at hx
      have := ih hsort' (by simp) hx'
      omega

/-- C7: `interpolate_headcount` — on a nonempty, strictly date-ordered
anchor list: a date on/before the first anchor returns the first
anchor's headcount; on/after the last anchor returns the last anchor's
headcount; strictly between, a bracketing adjacent anchor pair
`(d1,h1), (d2,h2)` with `d1 ≤ d ≤ d2` exists and the result is
`h1 + (h2-h1) * (d-d1)/(d2-d1)` truncated to an integer. -/
theorem c7_interpolate_headcount_spec (anchors : List (Nat × Int)) (d : Nat)
    (hne : anchors ≠ [])
    (hsort : anchors.Chain' (fun a b => a.1 < b.1)) :
    (d ≤ (anchors.headD (0, 0)).1 →
      interpolate_headcount anchors d = (anchors.headD (0, 0)).2) ∧
    ((anchors.getLastD (0, 0)).1 ≤ d →
      interpolate_headcount anchors d = (anchors.getLastD (0, 0)).2) ∧
    ((anchors.headD (0, 0)).1 < d → d < (anchors.getLastD (0, 0)).1 →
      ∃ i a1 a2, anchors.get? i = some a1 ∧ anchors.get? (i + 1) = some a2 ∧
        a1.1 ≤ d ∧ d ≤ a2.1 ∧
        interpolate_headcount anchors d = truncQ ((a1.2 : ℚ) +
          ((a2.2 : ℚ) - (a1.2 : ℚ)) *
          (((d : ℚ) - (a1.1 : ℚ)) / ((a2.1 : ℚ) - (a1.1 : ℚ))))) := by
  match anchors, hne with
  | a0 :: rest, _ =>
    obtain ⟨xL, hxL⟩ : ∃ x, (a0 :: rest).getLast? = some x := by
      cases h : (a0 :: rest).getLast? with
      | none => simp at h
      | some x => exact ⟨x, rfl⟩
    have hlastD : (a0 :: rest).getLastD (0, 0) = xL := by
      rw [List.getLastD_eq_getLast?, hxL]
      rfl
    have hlastD' : (a0 :: rest).getLastD a0 = xL := by
      rw [List.getLastD_eq_getLast?, hxL]
      rfl
    refine ⟨?_, ?_, ?_⟩
    · intro hle
      simp only [interpolate_headcount]
      rw [if_pos (by simpa using hle)]
      rfl
    · intro hge
      rw [hlastD] at hge
      simp only [interpolate_headcount, hlastD']
      by_cases hfirst : d ≤ a0.1
      · rw [if_pos hfirst]
        match rest, hxL with
        | [], hxL =>
          have hxa : a0 = xL := by simpa using hxL
          rw [hlastD, ← hxa]
        | b :: rest', hxL =>
          exfalso
          have := chain_lt_head_getLast hsort (by simp) hxL
          omega
      · rw [if_neg hfirst, if_pos hge, hlastD]
    · intro hlt1 hlt2
      rw [hlastD] at hlt2
      have hlast' : ∀ aL ∈ (a0 :: rest).getLast?, d < aL.1 := by
        intro aL haL
        rw [hxL] at haL
        simp at haL
        subst haL
        exact hlt2
      have hhead' : ∀ x ∈ (a0 :: rest).head?, x.1 < d := by
        intro x hx
        simp at hx
        subst hx
        simpa using hlt1
      obtain ⟨i, a1, a2, hg1, hg2, hle1, hle2, hscan⟩ :=
        interp_scan_bracket d (a0 :: rest) (by simp) hsort hhead' hlast'
      refine ⟨i, a1, a2, hg1, hg2, hle1, hle2, ?_⟩
      simp only [interpolate_headcount, hlastD']
      rw [if_neg (by simpa using hlt1)]
      rw [if_neg (by omega)]
      rw [hscan]

/-- C7 witness: the interpolation specification applied to the real
growth-anchor table at 2016-04-15, a date strictly between the first
and last anchors. -/
theorem realAnchors_sorted : realAnchors.Chain' (fun a b => a.1 < b.1) := by
  simp only [realAnchors, List.Chain', List.chain_cons, List.Chain.nil, and_true]
  decide

theorem c7_interpolate_headcount_spec_witness :
    realAnchors ≠ [] ∧
    realAnchors.Chain' (fun a b => a.1 < b.1) ∧
    ((dateAbsDay 2016 4 15 ≤ (realAnchors.headD (0, 0)).1 →
      interpolate_headcount realAnchors (dateAbsDay 2016 4 15) =
        (realAnchors.headD (0, 0)).2) ∧
    ((realAnchors.getLastD (0, 0)).1 ≤ dateAbsDay 2016 4 15 →
      interpolate_headcount realAnchors (dateAbsDay 2016 4 15) =
        (realAnchors.getLastD (0, 0)).2) ∧
    ((realAnchors.headD (0, 0)).1 < dateAbsDay 2016 4 15 →
      dateAbsDay 2016 4 15 < (realAnchors.getLastD (0, 0)).1 →
      ∃ i a1 a2, realAnchors.get? i = some a1 ∧
        realAnchors.get? (i + 1) = some a2 ∧
        a1.1 ≤ dateAbsDay 2016 4 15 ∧ dateAbsDay 2016 4 15 ≤ a2.1 ∧
        interpolate_headcount realAnchors (dateAbsDay 2016 4 15) =
          truncQ ((a1.2 : ℚ) + ((a2.2 : ℚ) - (a1.2 : ℚ)) *
            (((dateAbsDay 2016 4 15 : ℚ) - (a1.1 : ℚ)) /
             ((a2.1 : ℚ) - (a1.1 : ℚ)))))) :=
  ⟨by decide, realAnchors_sorted,
   c7_interpolate_headcount_spec realAnchors (dateAbsDay 2016 4 15)
     (by decide) realAnchors_sorted⟩

/-- `round` is monotone. -/
theorem round_mono_q {a b : ℚ} (h : a ≤ b) : round a ≤ round b := by
  rw [round_eq, round_eq]
  exact Int.floor_le_floor (by linarith)

/-- `round2` of a value clamped into a band with hundredth-aligned
endpoints stays inside the band. -/
theorem round2_clamp_mem (lo hi z : ℚ) (a b : ℤ)
    (ha : lo * 100 = (a : ℚ)) (hb : hi * 100 = (b : ℚ)) (hab : lo ≤ hi) :
    lo ≤ round2 (max lo (min hi z)) ∧ round2 (max lo (min hi z)) ≤ hi := by
  set c := max lo (min hi z) with hc
  have h1 : lo ≤ c := le_max_left _ _
  have h2 : c ≤ hi := max_le hab (min_le_left _ _)
  have hround1 : (a : ℤ) ≤ round (c * 100) := by
    have := round_mono_q (by nlinarith : lo * 100 ≤ c * 100)
    rwa [ha, round_intCast] at this
  have hround2 : round (c * 100) ≤ (b : ℤ) := by
    have := round_mono_q (by nlinarith : c * 100 ≤ hi * 100)
    rwa [hb, round_intCast] at this
  have hlo : lo = (a : ℚ) / 100 := by
    rw [eq_div_iff (by norm_num : (100 : ℚ) ≠ 0)]
    exact ha
  have hhi : hi = (b : ℚ) / 100 := by
    rw [eq_div_iff (by norm_num : (100 : ℚ) ≠ 0)]
    exact hb
  have hcast1 : (a : ℚ) ≤ (round (c * 100) : ℚ) := by exact_mod_cast hround1
  have hcast2 : ((round (c * 100) : ℤ) : ℚ) ≤ (b : ℚ) := by exact_mod_cast hround2
  constructor
  · show lo ≤ (round (c * 100) : ℚ) / 100
    rw [hlo]
    linarith
  · show (round (c * 100) : ℚ) / 100 ≤ hi
    rw [hhi]
    linarith

/-- The salary draw for a known grade is the clamped, rounded normal
deviate. -/
theorem salary_for_grade_eq (cfg : SimConfig) (n : Nat) (g : Rng)
    (gr : Grade) (hfind : cfg.grades.find? (fun x => x.id == n) = some gr) :
    ∃ z, salary_for_grade cfg n g =
      (round2 (max gr.gmin (min gr.gmax z)), (rand_q g).2) := by
  simp only [salary_for_grade, hfind, gauss]
  exact ⟨_, rfl⟩

/-- `config.CAREER_ACTIONS[0]`: the Promotion action. -/
def promo_action : CareerAction :=
  ⟨"Change Job", "CHG_JOB", "Promotion", "CHG_PROMO", 20/100⟩

/-- `clone_event` written out: the copied record with the four
refreshed fields. -/
theorem clone_event_fields (source : EmployeeEvent) (m d : Nat) (g : Rng) :
    ∃ entry wid g', clone_event source m d g =
      ({ source with
          eff_month := m, eff_day := d, entry_stamp := entry,
          transaction_wid := wid,
          sequence_number := source.sequence_number + 1 }, g') := by
  simp only [clone_event]
  rcases h1 : entry_date_from_effective m d g with ⟨entry, ga⟩
  rcases h2 : generate_wid ga with ⟨wid, gb⟩
  exact ⟨entry, wid, gb, rfl⟩

/-- The action-field stamping applied between clone and dispatch. -/
def stamp_action (act : CareerAction) (event : EmployeeEvent) : EmployeeEvent :=
  { event with
    transaction_type := act.action
    action := act.action
    action_code := act.code
    action_reason_code := act.reason_code }

/-- Structural shape of `apply_career_action` on an active employee:
date draw, clone, action stamping, dispatch, then append-and-update. -/
theorem apply_career_action_shape (cfg : SimConfig) (ref : RefData)
    (m emp_id : Nat) (act : CareerAction) (s : SimState) (ev : EmployeeEvent)
    (hget : dict_get s.active_employees emp_id = some ev) :
    ∃ d1 g1 ev1 g2 e' g3,
      random_date_in_month cfg m s.gen = (d1, g1) ∧
      clone_event ev m d1 g1 = (ev1, g2) ∧
      career_override cfg ref m d1 act ev (stamp_action act ev1) g2 = (e', g3) ∧
      apply_career_action cfg ref m emp_id act s =
        { s with
            gen := g3, all_events := s.all_events ++ [e'],
            active_employees := dict_set s.active_employees emp_id e' } := by
  simp only [apply_career_action, hget]
  rcases h1 : random_date_in_month cfg m s.gen with ⟨d1, g1⟩
  rcases h2 : clone_event ev m d1 g1 with ⟨ev1, g2⟩
  rcases h3 : career_override cfg ref m d1 act ev (stamp_action act ev1) g2
    with ⟨e', g3⟩
  refine ⟨d1, g1, ev1, g2, e', g3, rfl, h2, h3, ?_⟩
  have h3' : career_override cfg ref m d1 act ev
      { ev1 with
        transaction_type := act.action, action := act.action,
        action_code := act.code, action_reason_code := act.reason_code } g2
      = (e', g3) := h3
  simp only [h3']

/-- The promotion dispatch when the ladder has a next band. -/
theorem career_override_promo (cfg : SimConfig) (ref : RefData)
    (m eff_day : Nat) (last_event event : EmployeeEvent) (g : Rng)
    (ng : Nat) (gr : Grade)
    (hng : next_grade cfg last_event.grade_id true = some ng)
    (hfind : cfg.grades.find? (fun x => x.id == ng) = some gr) :
    ∃ jpf z g',
      career_override cfg ref m eff_day promo_action last_event event g =
      ({ event with
          grade_id := ng, comp_grade := ng, job_profile_id := jpf,
          base_pay := round2 (max gr.gmin (min gr.gmax z)),
          pay_range_min := gr.gmin, pay_range_mid := gr.gmid,
          pay_range_max := gr.gmax,
          comp_grade_profile := gr.profile_id }, g') := by
  simp only [career_override, promo_action, if_true, hng, hfind]
  rcases h3 : pick_job_profile_for_grade ref ng g with ⟨jp?, g3⟩
  simp only [h3]
  obtain ⟨z, hz⟩ := salary_for_grade_eq cfg ng g3 gr hfind
  simp only [hz]
  cases jp? with
  | none => exact ⟨event.job_profile_id, z, (rand_q g3).2, by simp⟩
  | some p => exact ⟨p.id, z, (rand_q g3).2, by simp⟩

/-- The promotion dispatch at the top band leaves the event
unchanged. -/
theorem career_override_promo_top (cfg : SimConfig) (ref : RefData)
    (m eff_day : Nat) (last_event event : EmployeeEvent) (g : Rng)
    (hng : next_grade cfg last_event.grade_id true = none) :
    career_override cfg ref m eff_day promo_action last_event event g =
      (event, g) := by
  simp only [career_override, promo_action, if_true, hng]

/-- Shape of the promotion branch of `_apply_career_action` when the
ladder has a next band: one event is appended whose grade is the next
band and whose base pay is the clamped rounded salary draw for it. -/
theorem apply_promo_shape (ref : RefData) (m emp_id : Nat) (s : SimState)
    (ev : EmployeeEvent) (ng : Nat) (gr : Grade)
    (hget : dict_get s.active_employees emp_id = some ev)
    (hng : next_grade realConfig ev.grade_id true = some ng)
    (hfind : realConfig.grades.find? (fun x => x.id == ng) = some gr) :
    ∃ e' z, (apply_career_action realConfig ref m emp_id promo_action s).all_events
      = s.all_events ++ [e'] ∧ e'.employee_id = ev.employee_id ∧
      e'.grade_id = ng ∧ e'.sequence_number = ev.sequence_number + 1 ∧
      e'.base_pay = round2 (max gr.gmin (min gr.gmax z)) := by
  obtain ⟨d1, g1, ev1, g2, e', g3, h1, h2, h3, happ⟩ :=
    apply_career_action_shape realConfig ref m emp_id promo_action s ev hget
  obtain ⟨entry, wid, g2', hclone⟩ := clone_event_fields ev m d1 g1
  rw [h2] at hclone
  have hev1 : ev1 = { ev with
      eff_month := m, eff_day := d1,
      entry_stamp := entry, transaction_wid := wid,
      sequence_number := ev.sequence_number + 1 } := by
    exact congrArg Prod.fst hclone
  obtain ⟨jpf, z, g', hov⟩ := career_override_promo realConfig ref m d1 ev
    (stamp_action promo_action ev1) g2 ng gr hng hfind
  rw [h3] at hov
  have he' : e' = { stamp_action promo_action ev1 with
      grade_id := ng, comp_grade := ng, job_profile_id := jpf,
      base_pay := round2 (max gr.gmin (min gr.gmax z)),
      pay_range_min := gr.gmin, pay_range_mid := gr.gmid,
      pay_range_max := gr.gmax, comp_grade_profile := gr.profile_id } :=
    congrArg Prod.fst hov
  refine ⟨e', z, by rw [happ], ?_, ?_, ?_, ?_⟩ <;>
    simp [he', hev1, stamp_action]

/-- Shape of the promotion branch at the top band: `next_grade` has no
next band, so the cloned event keeps the grade and pay unchanged. -/
theorem apply_promo_top_shape (ref : RefData) (m emp_id : Nat) (s : SimState)
    (ev : EmployeeEvent)
    (hget : dict_get s.active_employees emp_id = some ev)
    (hng : next_grade realConfig ev.grade_id true = none) :
    ∃ e', (apply_career_action realConfig ref m emp_id promo_action s).all_events
      = s.all_events ++ [e'] ∧ e'.employee_id = ev.employee_id ∧
      e'.grade_id = ev.grade_id ∧ e'.base_pay = ev.base_pay ∧
      e'.sequence_number = ev.sequence_number + 1 := by
  obtain ⟨d1, g1, ev1, g2, e', g3, h1, h2, h3, happ⟩ :=
    apply_career_action_shape realConfig ref m emp_id promo_action s ev hget
  obtain ⟨entry, wid, g2', hclone⟩ := clone_event_fields ev m d1 g1
  rw [h2] at hclone
  have hev1 : ev1 = { ev with
      eff_month := m, eff_day := d1,
      entry_stamp := entry, transaction_wid := wid,
      sequence_number := ev.sequence_number + 1 } :=
    congrArg Prod.fst hclone
  have hov := career_override_promo_top realConfig ref m d1 ev
    (stamp_action promo_action ev1) g2 hng
  rw [h3] at hov
  have he' : e' = stamp_action promo_action ev1 := congrArg Prod.fst hov
  refine ⟨e', by rw [happ], ?_, ?_, ?_, ?_⟩ <;>
    simp [he', hev1, stamp_action]

/-- Clamped rounding into an integer-endpoint band. -/
theorem round2_clamp_mem_int (a b : ℤ) (z : ℚ) (hab : (a : ℚ) ≤ (b : ℚ)) :
    (a : ℚ) ≤ round2 (max (a : ℚ) (min (b : ℚ) z)) ∧
    round2 (max (a : ℚ) (min (b : ℚ) z)) ≤ (b : ℚ) :=
  round2_clamp_mem _ _ z (100 * a) (100 * b) (by push_cast; ring)
    (by push_cast; ring) hab

/-- Every band of the real ladder has integer pay bounds with
`min ≤ max`. -/
theorem realGrades_int_bounds :
    ∀ gr ∈ realGrades, ∃ a b : ℤ, gr.gmin = (a : ℚ) ∧ gr.gmax = (b : ℚ) ∧
      (a : ℚ) ≤ (b : ℚ) := by
  intro gr hgr
  fin_cases hgr
  · exact ⟨42000, 58000, by norm_num, by norm_num, by norm_num⟩
  · exact ⟨52000, 72000, by norm_num, by norm_num, by norm_num⟩
  · exact ⟨65000, 91000, by norm_num, by norm_num, by norm_num⟩
  · exact ⟨78000, 112000, by norm_num, by norm_num, by norm_num⟩
  · exact ⟨92000, 132000, by norm_num, by norm_num, by norm_num⟩
  · exact ⟨105000, 155000, by norm_num, by norm_num, by norm_num⟩
  · exact ⟨125000, 185000, by norm_num, by norm_num, by norm_num⟩
  · exact ⟨145000, 215000, by norm_num, by norm_num, by norm_num⟩
  · exact ⟨170000, 260000, by norm_num, by norm_num, by norm_num⟩
  · exact ⟨200000, 310000, by norm_num, by norm_num, by norm_num⟩
  · exact ⟨240000, 380000, by norm_num, by norm_num, by norm_num⟩
  · exact ⟨300000, 480000, by norm_num, by norm_num, by norm_num⟩
  · exact ⟨380000, 580000, by norm_num, by norm_num, by norm_num⟩
  · exact ⟨450000, 700000, by norm_num, by norm_num, by norm_num⟩
  · exact ⟨550000, 950000, by norm_num, by norm_num, by norm_num⟩

/-- C8: Promotion on the 15-band ladder — applying the Promotion career
action to an active employee at band `Gn` with `n < 15` appends an
event at band `Gn+1` whose new base pay lies within
`[min(Gn+1), max(Gn+1)]`; at the top band `G15` the appended event
keeps grade and pay unchanged. -/
theorem c8_promotion_ladder (ref : RefData) (m emp_id : Nat) (s : SimState)
    (ev : EmployeeEvent) (n : Nat)
    (hget : dict_get s.active_employees emp_id = some ev)
    (hgrade : ev.grade_id = n) (hn1 : 1 ≤ n) (hn15 : n ≤ 15) :
    (n < 15 → ∃ e' gr,
      (apply_career_action realConfig ref m emp_id promo_action s).all_events
        = s.all_events ++ [e'] ∧
      realConfig.grades.find? (fun x => x.id == n + 1) = some gr ∧
      e'.employee_id = ev.employee_id ∧ e'.grade_id = n + 1 ∧
      gr.gmin ≤ e'.base_pay ∧ e'.base_pay ≤ gr.gmax) ∧
    (n = 15 → ∃ e',
      (apply_career_action realConfig ref m emp_id promo_action s).all_events
        = s.all_events ++ [e'] ∧
      e'.employee_id = ev.employee_id ∧ e'.grade_id = ev.grade_id ∧
      e'.base_pay = ev.base_pay) := by
  constructor
  · intro hlt
    have hng : next_grade realConfig ev.grade_id true = some (n + 1) := by
      rw [hgrade]
      interval_cases n <;> with_unfolding_all decide
    have hfindSome : (realConfig.grades.find? (fun x => x.id == n + 1)).isSome := by
      interval_cases n <;> with_unfolding_all decide
    obtain ⟨gr, hfind⟩ := Option.isSome_iff_exists.mp hfindSome
    obtain ⟨e', z, happ, hemp, hgr, _hseq, hbp⟩ :=
      apply_promo_shape ref m emp_id s ev (n + 1) gr hget hng hfind
    have hmem : gr ∈ realGrades :=
      List.mem_of_find?_eq_some (by exact hfind)
    obtain ⟨a, b, hga, hgb, hab⟩ := realGrades_int_bounds gr hmem
    have hbounds := round2_clamp_mem_int a b z hab
    refine ⟨e', gr, happ, hfind, hemp, hgr, ?_, ?_⟩
    · rw [hbp, hga, hgb]
      exact hbounds.1
    · rw [hbp, hga, hgb]
      exact hbounds.2
  · intro heq
    have hng : next_grade realConfig ev.grade_id true = none := by
      rw [hgrade, heq]
      with_unfolding_all decide
    obtain ⟨e', happ, hemp, hgr, hbp, _⟩ :=
      apply_promo_top_shape ref m emp_id s ev hget hng
    exact ⟨e', happ, hemp, hgr, hbp⟩

/-- A concrete Hire event at band G01 used to instantiate witnesses. -/
def sample_event_g1 : EmployeeEvent :=
  { employee_id := 1
    eff_month := 0
    eff_day := 13
    entry_stamp := 13 * 86400 + 9 * 3600
    sequence_number := 1
    transaction_wid := 0
    transaction_type := "Hire"
    action := "Hire"
    action_code := "HIR"
    action_reason_code := "HIR_NEW"
    position_id := 1
    job_profile_id := 1
    grade_id := 1
    location_id := 1
    worker_type := "Employee"
    worker_sub_type := "Regular"
    time_type := "Full_Time"
    scheduled_fte := 1
    scheduled_weekly_hours := 75/2
    work_model_type := "On-Site"
    company_id := 2
    cost_center_id := 1
    sup_org_id := 1001
    matrix_org_id := 0
    pay_range_min := 42000
    pay_range_mid := 50000
    pay_range_max := 58000
    base_pay := 50000
    base_pay_currency := "CAD"
    comp_grade := 1
    comp_grade_profile := 1
    worker_status := "Active"
    active := true
    hire_month := 0
    hire_day := 13
    terminated := false
    termination_category := ""
    termination_involuntary := false
    regrettable_termination := false
    not_eligible_for_hire := false
    manager_id := some 2
    expected_return := none }

/-- A concrete event at band G02 (the manager of employee 1). -/
def sample_event_g2 : EmployeeEvent :=
  { sample_event_g1 with
      employee_id := 2
      grade_id := 2
      comp_grade := 2
      manager_id := none
      pay_range_min := 52000
      pay_range_mid := 62000
      pay_range_max := 72000
      base_pay := 62000 }

/-- A concrete event at the top band G15. -/
def sample_event_g15 : EmployeeEvent :=
  { sample_event_g1 with
      employee_id := 3
      grade_id := 15
      comp_grade := 15
      manager_id := none
      base_pay := 750000 }

/-- A concrete simulator state with employees 1 (G01, managed by 2),
2 (G02) and 3 (G15) active. -/
def sample_state : SimState :=
  { gen := zeroRng
    faker_ca := ⟨20160213, 0⟩
    faker_us := ⟨20160214, 0⟩
    employee_seq := 3
    position_seq := 3
    active_employees := [(1, sample_event_g1), (2, sample_event_g2),
      (3, sample_event_g15)]
    all_events := [sample_event_g1, sample_event_g2, sample_event_g15]
    profiles := []
    rescinded_wids := []
    position_assignments := [] }

/-- C8 witness: the promotion theorem applied to concrete G01 and G15
employees in `sample_state`. -/
theorem c8_promotion_ladder_witness :
    (dict_get sample_state.active_employees 1 = some sample_event_g1 ∧
     sample_event_g1.grade_id = 1 ∧ 1 ≤ 1 ∧ 1 ≤ 15 ∧
     (1 < 15 → ∃ e' gr,
       (apply_career_action realConfig ⟨[], [], [], []⟩ 3 1 promo_action
         sample_state).all_events = sample_state.all_events ++ [e'] ∧
       realConfig.grades.find? (fun x => x.id == 1 + 1) = some gr ∧
       e'.employee_id = sample_event_g1.employee_id ∧ e'.grade_id = 1 + 1 ∧
       gr.gmin ≤ e'.base_pay ∧ e'.base_pay ≤ gr.gmax)) ∧
    (dict_get sample_state.active_employees 3 = some sample_event_g15 ∧
     sample_event_g15.grade_id = 15 ∧
     (15 = 15 → ∃ e',
       (apply_career_action realConfig ⟨[], [], [], []⟩ 3 3 promo_action
         sample_state).all_events = sample_state.all_events ++ [e'] ∧
       e'.employee_id = sample_event_g15.employee_id ∧
       e'.grade_id = sample_event_g15.grade_id ∧
       e'.base_pay = sample_event_g15.base_pay)) :=
  ⟨⟨rfl, rfl, le_refl 1, by omega,
    (c8_promotion_ladder ⟨[], [], [], []⟩ 3 1 sample_state sample_event_g1 1
      rfl rfl (le_refl 1) (by omega)).1⟩,
   ⟨rfl, rfl,
    (c8_promotion_ladder ⟨[], [], [], []⟩ 3 3 sample_state sample_event_g15 15
      rfl rfl (by omega) (le_refl 15)).2⟩⟩

/-- An element selected by `choice` belongs to the list. -/
theorem choice_fst_mem {α : Type} {xs : List α} {g : Rng} {a : α}
    (h : (choice xs g).1 = some a) : a ∈ xs := by
  simp only [choice, rand_n] at h
  exact List.get?_mem h

/-- C2 (amended): at the moment a manager is assigned, the selected
manager is an active employee whose current grade rank is strictly
greater than the subject's — `_pick_manager` only ever returns ids from
the strictly-higher-rank candidate scan. -/
theorem c2_pick_manager_rank (active : List (Nat × EmployeeEvent))
    (gid mid : Nat) (g : Rng)
    (h : (pick_manager active gid g).1 = some mid) :
    ∃ p ∈ active, p.1 = mid ∧ gid - 1 < p.2.grade_id - 1 := by
  simp only [pick_manager] at h
  split at h
  · simp at h
  · have hmem := choice_fst_mem h
    have hmem' := List.mem_of_mem_take hmem
    obtain ⟨p, hp, hpm⟩ := List.mem_map.mp hmem'
    have hfil := List.mem_filter.mp hp
    refine ⟨p, hfil.1, hpm, ?_⟩
    have := of_decide_eq_true hfil.2
    omega

/-- C2 amended witness: in `sample_state`, `_pick_manager` for a G01
hire returns employee 2 (G02), whose rank is strictly greater. -/
theorem c2_pick_manager_rank_witness :
    (pick_manager sample_state.active_employees 1 zeroRng).1 = some 2 ∧
    ∃ p ∈ sample_state.active_employees, p.1 = 2 ∧ 1 - 1 < p.2.grade_id - 1 :=
  ⟨rfl, c2_pick_manager_rank sample_state.active_employees 1 2 zeroRng rfl⟩

/-- The manager-grade invariant of the claim, on the roster of latest
events: every set manager reference names another roster id whose
current grade rank is strictly greater. -/
def manager_ok (active : List (Nat × EmployeeEvent)) : Bool :=
  active.all (fun p =>
    match p.2.manager_id with
    | none => true
    | some mid => active.any (fun q =>
        q.1 == mid && decide (p.2.grade_id - 1 < q.2.grade_id - 1)))

/-- C2 counterexample: the manager-grade invariant is *not* maintained
at every point of the simulation.  In `sample_state` (employee 1 at
G01 managed by employee 2 at G02) the invariant holds; applying the
code's own Promotion career action to employee 1 yields a state where
employee 1 is at G02 with the manager reference still pointing at
employee 2 (also G02) — the rank is no longer strictly greater, since
`_clone_event` copies the manager reference unchanged and no later pass
re-validates it. -/
theorem c2_counterexample :
    manager_ok sample_state.active_employees = true ∧
    (let s' := apply_career_action realConfig ⟨[], [], [], []⟩ 3 1
       promo_action sample_state
     (dict_get s'.active_employees 1).map (fun e => e.grade_id) = some 2 ∧
     (dict_get s'.active_employees 1).bind (fun e => e.manager_id) = some 2 ∧
     (dict_get s'.active_employees 2).map (fun e => e.grade_id) = some 2 ∧
     manager_ok s'.active_employees = false) := by
  exact ⟨by decide, by decide, by decide, by decide, by decide⟩

/-- The weighted index selection stays within the list. -/
theorem pick_from_lt (q : ℚ) : ∀ (ws : List ℚ) (acc : ℚ) (i : Nat), ws ≠ [] →
    pick_from q acc i ws < i + ws.length
  | [], _, _, h => absurd rfl h
  | [_], _, i, _ => by simp [pick_from]
  | w :: w2 :: rest, acc, i, _ => by
    simp only [pick_from]
    split
    · simp
    · have := pick_from_lt q (w2 :: rest) (acc + w) (i + 1) (by simp)
      simp only [List.length_cons] at this ⊢
      omega

/-- On a nonempty table, `weighted_choice` selects an element. -/
theorem weighted_choice_fst_some {α : Type} (items : List α) (w : α → ℚ)
    (g : Rng) (h : items ≠ []) :
    ∃ a, (weighted_choice items w g).1 = some a ∧ a ∈ items := by
  simp only [weighted_choice, rand_q]
  have hlt := pick_from_lt (g.qs g.pos * (items.map w).sum) (items.map w) 0 0
    (by simpa using h)
  rw [List.length_map] at hlt
  simp only [Nat.zero_add] at hlt
  refine ⟨items.get ⟨_, hlt⟩, ?_, List.get_mem _ _ _⟩
  rw [List.get?_eq_get hlt]

/-- `_apply_comp_change` on an active employee appends exactly one
"Compensation Change" data-change event. -/
theorem apply_comp_change_appends (cfg : SimConfig) (m emp_id : Nat)
    (s : SimState) (ev : EmployeeEvent)
    (hget : dict_get s.active_employees emp_id = some ev) :
    ∃ e', (apply_comp_change cfg m emp_id s).all_events
      = s.all_events ++ [e'] ∧ e'.action_reason_code = "DAT_COMP" := by
  simp only [apply_comp_change, hget]
  rcases h1 : random_date_in_month cfg m s.gen with ⟨d1, g1⟩
  rcases h2 : clone_event ev m d1 g1 with ⟨ev1, g2⟩
  rcases h3 : gauss cfg.avg_annual_raise_pct cfg.raise_std_dev g2 with ⟨z, g3⟩
  exact ⟨_, rfl, rfl⟩

/-- The final career draw appends an event iff the oracle's next value
is below `1 / AVG_MONTHS_BETWEEN_EVENTS`. -/
theorem career_event_draw_appends (ref : RefData) (m emp_id : Nat)
    (s : SimState) (ev : EmployeeEvent)
    (hget : dict_get s.active_employees emp_id = some ev) :
    (∃ e', (career_event_draw realConfig ref m emp_id s).all_events
      = s.all_events ++ [e'])
      ↔ s.gen.qs s.gen.pos < 1 / realConfig.avg_months_between_events := by
  by_cases hq : s.gen.qs s.gen.pos < 1 / realConfig.avg_months_between_events
  · obtain ⟨a, ha, hamem⟩ := weighted_choice_fst_some realConfig.career_actions
      (fun x => x.weight) ⟨s.gen.qs, s.gen.ns, s.gen.pos + 1⟩ (by decide)
    have hpair : weighted_choice realConfig.career_actions (fun x => x.weight)
        ⟨s.gen.qs, s.gen.ns, s.gen.pos + 1⟩ =
        (some a, (weighted_choice realConfig.career_actions (fun x => x.weight)
          ⟨s.gen.qs, s.gen.ns, s.gen.pos + 1⟩).2) :=
      Prod.ext ha rfl
    have hced : career_event_draw realConfig ref m emp_id s =
        apply_career_action realConfig ref m emp_id a
          { s with gen := (weighted_choice realConfig.career_actions
              (fun x => x.weight) ⟨s.gen.qs, s.gen.ns, s.gen.pos + 1⟩).2 } := by
      simp only [career_event_draw, rand_q]
      rw [if_pos hq, hpair]
    obtain ⟨d1, g1, ev1, g2', e', g3, _, _, _, happ⟩ :=
      apply_career_action_shape realConfig ref m emp_id a
        { s with gen := (weighted_choice realConfig.career_actions
            (fun x => x.weight) ⟨s.gen.qs, s.gen.ns, s.gen.pos + 1⟩).2 } ev
        (by exact hget)
    rw [hced, happ]
    exact iff_of_true ⟨e', rfl⟩ hq
  · simp only [career_event_draw, rand_q]
    rw [if_neg hq]
    simp only [iff_false_intro hq, iff_false]
    intro ⟨e', he'⟩
    simp at he'

/-- C9 (amended): the monthly career-action gate of
`_process_career_events` is keyed to the employee's most recent event,
not their Hire: (a) an active employee whose latest event is less than
3 months old is skipped without any draw; (b) outside January-March, an
employee whose latest event is at least 3 months old receives a career
action exactly when the next oracle draw is below
`1 / AVG_MONTHS_BETWEEN_EVENTS`; (c) in January-March an annual
compensation change (probability `ANNUAL_COMP_CHANGE_RATE / 3`)
preempts the career-action evaluation. -/
theorem c9_career_gate (ref : RefData) (m emp_id : Nat) (s : SimState)
    (ev : EmployeeEvent)
    (hget : dict_get s.active_employees emp_id = some ev) :
    ((m : Int) - (ev.eff_month : Int) < 3 →
      career_one realConfig ref m s emp_id = s) ∧
    (3 ≤ (m : Int) - (ev.eff_month : Int) →
      ¬(monthOf m = 1 ∨ monthOf m = 2 ∨ monthOf m = 3) →
      ((∃ e', (career_one realConfig ref m s emp_id).all_events
        = s.all_events ++ [e'])
        ↔ s.gen.qs s.gen.pos < 1 / realConfig.avg_months_between_events)) ∧
    (3 ≤ (m : Int) - (ev.eff_month : Int) →
      (monthOf m = 1 ∨ monthOf m = 2 ∨ monthOf m = 3) →
      s.gen.qs s.gen.pos < realConfig.annual_comp_change_rate / 3 →
      ∃ e', (career_one realConfig ref m s emp_id).all_events
        = s.all_events ++ [e'] ∧ e'.action_reason_code = "DAT_COMP") := by
  refine ⟨?_, ?_, ?_⟩
  · intro hlt
    simp only [career_one, hget]
    rw [if_pos hlt]
  · intro hge hq1
    simp only [career_one, hget]
    rw [if_neg (by omega), if_neg hq1]
    exact career_event_draw_appends ref m emp_id s ev hget
  · intro hge hq1 hdraw
    simp only [career_one, hget]
    rw [if_neg (by omega), if_pos hq1]
    simp only [rand_q]
    rw [if_pos hdraw]
    exact apply_comp_change_appends realConfig m emp_id
      { s with gen := ⟨s.gen.qs, s.gen.ns, s.gen.pos + 1⟩ } ev (by exact hget)

/-- The latest event of the C9 witness employee: hired in month 0, most
recent event (a data change) in month 13. -/
def c9_event : EmployeeEvent :=
  { sample_event_g1 with
      eff_month := 13
      sequence_number := 2
      transaction_type := "Data Change"
      action := "Data Change"
      action_code := "DAT_CHG"
      action_reason_code := "DAT_COMP" }

/-- The C9 state: employee 1's history is the hire (month 0) and the
data change (month 13). -/
def c9_state : SimState :=
  { sample_state with
      active_employees := [(1, c9_event)]
      all_events := [sample_event_g1, c9_event] }

/-- C9 counterexample: at month 15 (May 2017, outside Q1) employee 1
has tenure 15 months since their Hire event (month 0), well past 3
months, and the zero oracle's next draw 0 is below
`1 / AVG_MONTHS_BETWEEN_EVENTS = 1/18`, so by the claim a career action
would be evaluated and fire; but `_process_career_events` skips the
employee entirely — `months_since_hire` is computed from the *latest*
event (month 13, 2 months past) — and returns the state unchanged. -/
theorem c9_counterexample :
    c9_event.hire_month = 0 ∧
    (3 : Int) ≤ (15 : Int) - (c9_event.hire_month : Int) ∧
    ¬(monthOf 15 = 1 ∨ monthOf 15 = 2 ∨ monthOf 15 = 3) ∧
    c9_state.gen.qs c9_state.gen.pos <
      1 / realConfig.avg_months_between_events ∧
    career_one realConfig ⟨[], [], [], []⟩ 15 c9_state 1 = c9_state := by
  refine ⟨rfl, by decide, by decide, ?_, ?_⟩
  · show (0 : ℚ) < 1 / realConfig.avg_months_between_events
    norm_num [realConfig]
  · rfl

/-- C9 amended witness: the gate theorem applied to the concrete C9
state at month 15 — part (a) fires because the latest event is 2
months old. -/
theorem c9_career_gate_witness :
    dict_get c9_state.active_employees 1 = some c9_event ∧
    ((15 : Int) - (c9_event.eff_month : Int) < 3 →
      career_one realConfig ⟨[], [], [], []⟩ 15 c9_state 1 = c9_state) ∧
    ((15 : Int) - (c9_event.eff_month : Int) < 3) ∧
    career_one realConfig ⟨[], [], [], []⟩ 15 c9_state 1 = c9_state := by
  have h := (c9_career_gate ⟨[], [], [], []⟩ 15 1 c9_state c9_event rfl).1
  exact ⟨rfl, h, by decide, h (by decide)⟩

/-- Extracting the element at a valid index is a permutation move. -/
theorem perm_cons_eraseIdx {α : Type} :
    ∀ (l : List α) (i : Nat) (a : α), l.get? i = some a →
    l.Perm (a :: l.eraseIdx i)
  | [], i, a, h => by simp at h
  | x :: t, 0, a, h => by
    simp at h
    subst h
    simp [List.eraseIdx]
  | x :: t, i + 1, a, h => by
    simp only [List.get?_cons_succ] at h
    have ih := perm_cons_eraseIdx t i a h
    have h1 : (x :: t).Perm (x :: a :: t.eraseIdx i) := ih.cons x
    have h2 : (x :: a :: t.eraseIdx i).Perm (a :: x :: t.eraseIdx i) :=
      List.Perm.swap a x _
    have h3 : a :: x :: t.eraseIdx i = a :: (x :: t).eraseIdx (i + 1) := rfl
    exact h3 ▸ (h1.trans h2)

/-- The decoded shuffle is a permutation of its input. -/
theorem shuffle_fuel_perm {α : Type} :
    ∀ (f s : Nat) (xs : List α), (shuffle_fuel f s xs).Perm xs
  | 0, _, xs => List.Perm.refl xs
  | _ + 1, _, [] => List.Perm.refl []
  | f + 1, s, x :: xs => by
    simp only [shuffle_fuel]
    cases hg : (x :: xs).get? (s % (x :: xs).length) with
    | none => exact List.Perm.refl _
    | some a =>
      have hperm := perm_cons_eraseIdx (x :: xs) (s % (x :: xs).length) a hg
      have ih := shuffle_fuel_perm f (s / (x :: xs).length)
        ((x :: xs).eraseIdx (s % (x :: xs).length))
      exact (ih.cons a).trans hperm.symm

/-- `shuffle` returns a permutation of its input. -/
theorem shuffle_fst_perm {α : Type} (xs : List α) (g : Rng) :
    (shuffle xs g).1.Perm xs := by
  simp only [shuffle, rand_n]
  exact shuffle_fuel_perm _ _ _

/-- `rescind_one` appends exactly the record of its event. -/
theorem rescind_one_shape (s : SimState) (e : EmployeeEvent) :
    ∃ code g', rescind_one s e =
      { s with gen := g', rescinded_wids := s.rescinded_wids ++
        [{ workday_id := e.transaction_wid, idp_table := code,
           rescinded_moment := e.entry_stamp }] } := by
  simp only [rescind_one]
  rcases h : table_code_for_type e.transaction_type s.gen with ⟨code, g'⟩
  exact ⟨code, g', rfl⟩

/-- Folding `rescind_one` adds one record per processed event. -/
theorem foldl_rescind_length :
    ∀ (l : List EmployeeEvent) (s : SimState),
    (l.foldl rescind_one s).rescinded_wids.length =
      s.rescinded_wids.length + l.length
  | [], s => by simp
  | e :: t, s => by
    obtain ⟨code, g', hshape⟩ := rescind_one_shape s e
    simp only [List.foldl_cons, hshape]
    rw [foldl_rescind_length t _]
    simp
    omega

/-- Every record produced by the fold refers to a processed event's
WID and entry stamp (or was present before). -/
theorem foldl_rescind_mem :
    ∀ (l : List EmployeeEvent) (s : SimState) (r : RescindRow),
    r ∈ (l.foldl rescind_one s).rescinded_wids →
    r ∈ s.rescinded_wids ∨ ∃ e ∈ l, r.workday_id = e.transaction_wid ∧
      r.rescinded_moment = e.entry_stamp
  | [], _, r, h => Or.inl h
  | e :: t, s, r, h => by
    simp only [List.foldl_cons] at h
    rcases foldl_rescind_mem t (rescind_one s e) r h with h1 | ⟨e', he', hw, hm⟩
    · obtain ⟨code, g', hshape⟩ := rescind_one_shape s e
      rw [hshape] at h1
      simp only at h1
      rcases List.mem_append.mp h1 with h2 | h2
      · exact Or.inl h2
      · simp at h2
        subst h2
        exact Or.inr ⟨e, List.mem_cons_self e t, rfl, rfl⟩
    · exact Or.inr ⟨e', List.mem_cons_of_mem e he', hw, hm⟩

/-- C6 (amended): the rescind pass produces
`min(int(len(all_events) * RESCIND_RATE), #non-Hire events)` records —
the target count is computed from *all* generated events (Hires
included), then capped by the number of non-Hire candidates. -/
theorem c6_rescind_count (cfg : SimConfig) (s : SimState) :
    (generate_rescinded cfg s).rescinded_wids.length =
      s.rescinded_wids.length +
      min (truncQ ((s.all_events.length : ℚ) * cfg.rescind_rate)).toNat
        (s.all_events.filter (fun e => e.transaction_type ≠ "Hire")).length := by
  simp only [generate_rescinded]
  rw [foldl_rescind_length, List.length_take,
    (shuffle_fst_perm _ _).length_eq]

/-- C5 (amended): every record of the rescind pass references the WID
of a generated event and carries a rescind timestamp *equal to* (hence
not strictly after) that event's entry timestamp —
`generate_rescinded` copies `entry_datetime` verbatim into
`rescinded_moment`. -/
theorem c5_rescind_moment (cfg : SimConfig) (s : SimState)
    (hpre : s.rescinded_wids = []) :
    ∀ r ∈ (generate_rescinded cfg s).rescinded_wids,
      ∃ e ∈ s.all_events, r.workday_id = e.transaction_wid ∧
        r.rescinded_moment = e.entry_stamp ∧
        ¬ (e.entry_stamp < r.rescinded_moment) := by
  intro r hr
  simp only [generate_rescinded] at hr
  rcases hsh : shuffle (s.all_events.filter
    (fun e => e.transaction_type ≠ "Hire")) s.gen with ⟨cand, g⟩
  rw [hsh] at hr
  rcases foldl_rescind_mem _ _ r hr with h1 | ⟨e, he, hw, hm⟩
  · rw [hpre] at h1
    simp at h1
  · have hcand : e ∈ cand := List.mem_of_mem_take he
    have hfil : e ∈ s.all_events.filter (fun x => x.transaction_type ≠ "Hire") := by
      have := shuffle_fst_perm (s.all_events.filter
        (fun x => x.transaction_type ≠ "Hire")) s.gen
      rw [hsh] at this
      exact this.mem_iff.mp hcand
    exact ⟨e, List.mem_of_mem_filter hfil, hw, hm, by omega⟩

/-- The single non-Hire event of the C5/C6 counterexample state. -/
def c56_term_event : EmployeeEvent :=
  { sample_event_g1 with
      employee_id := 2
      transaction_type := "Termination"
      action := "Termination"
      action_code := "TER"
      worker_status := "Terminated"
      active := false
      terminated := true
      entry_stamp := 1000 }

/-- The C5/C6 configuration: the real configuration with a rescind
rate of 1/2 (the rate is a tunable; with the default 1.5% the same
mismatch first appears at 67 events). -/
def c56_cfg : SimConfig := { realConfig with rescind_rate := 1/2 }

/-- A state whose history is 3 Hire events and one Termination (4
events in total, one rescind candidate). -/
def c56_state : SimState :=
  { gen := zeroRng
    faker_ca := ⟨20160213, 0⟩
    faker_us := ⟨20160214, 0⟩
    employee_seq := 2
    position_seq := 2
    active_employees := [(1, sample_event_g1)]
    all_events := [sample_event_g1, sample_event_g1, sample_event_g1,
      c56_term_event]
    profiles := []
    rescinded_wids := []
    position_assignments := [] }

set_option maxRecDepth 2000 in
/-- C6 counterexample: `c56_state` has 4 generated events of which
exactly 1 is non-Hire.  The claim predicts
`floor(rescind_rate * #non-Hire) = floor(0.5 * 1) = 0` records (and at
least 0 candidates exist); the code produces 1 record, because
`n_rescind = int(len(all_events) * rescind_rate) = int(4 * 0.5) = 2`
counts the Hire events too and is then capped by the single
candidate. -/
theorem c6_counterexample :
    (c56_state.all_events.filter (fun e => e.transaction_type ≠ "Hire")).length
      = 1 ∧
    (truncQ (((c56_state.all_events.filter
        (fun e => e.transaction_type ≠ "Hire")).length : ℚ) *
        c56_cfg.rescind_rate)).toNat = 0 ∧
    (generate_rescinded c56_cfg c56_state).rescinded_wids.length = 1 := by
  refine ⟨by decide, ?_, ?_⟩
  · with_unfolding_all decide
  · with_unfolding_all decide

set_option maxRecDepth 2000 in
/-- C5 counterexample: the single record produced by the rescind pass
on `c56_state` carries `rescinded_moment` equal to the original
Termination event's entry timestamp — not strictly later than it. -/
theorem c5_counterexample :
    (generate_rescinded c56_cfg c56_state).rescinded_wids =
      [{ workday_id := c56_term_event.transaction_wid,
         idp_table := "INT095E",
         rescinded_moment := c56_term_event.entry_stamp }] ∧
    ¬ (c56_term_event.entry_stamp < c56_term_event.entry_stamp) := by
  exact ⟨by with_unfolding_all decide, by omega⟩

set_option maxRecDepth 2000 in
/-- C5 amended witness: the rescind-moment theorem applied to
`c56_state` and its one produced record. -/
theorem c5_rescind_moment_witness :
    c56_state.rescinded_wids = [] ∧
    ({ workday_id := c56_term_event.transaction_wid,
       idp_table := "INT095E",
       rescinded_moment := c56_term_event.entry_stamp } : RescindRow)
      ∈ (generate_rescinded c56_cfg c56_state).rescinded_wids ∧
    ∃ e ∈ c56_state.all_events,
      ({ workday_id := c56_term_event.transaction_wid,
         idp_table := "INT095E",
         rescinded_moment := c56_term_event.entry_stamp } : RescindRow).workday_id
        = e.transaction_wid ∧
      ({ workday_id := c56_term_event.transaction_wid,
         idp_table := "INT095E",
         rescinded_moment := c56_term_event.entry_stamp } : RescindRow).rescinded_moment
        = e.entry_stamp ∧
      ¬ (e.entry_stamp <
        ({ workday_id := c56_term_event.transaction_wid,
           idp_table := "INT095E",
           rescinded_moment := c56_term_event.entry_stamp } : RescindRow).rescinded_moment) :=
  ⟨rfl, by with_unfolding_all decide,
   c5_rescind_moment c56_cfg c56_state rfl _ (by with_unfolding_all decide)⟩

/-! ### Run-level invariants (C3, C4, C10)

The per-employee history of a state, as the sublist of `all_events`
carrying that employee id, and the invariant preserved by every month
of the simulation. -/

theorem dict_get_map_set_ne {β : Type} (d : List (Nat × β)) (k k' : Nat)
    (v : β) (h : k' ≠ k) :
    dict_get (d.map (fun p => if p.1 = k then (k, v) else p)) k'
      = dict_get d k' := by
  induction d with
  | nil => rfl
  | cons p rest ih =>
    obtain ⟨a, b⟩ := p
    rw [List.map_cons]
    by_cases hak : a = k
    · subst hak
      rw [if_pos (show (a, b).1 = a from rfl)]
      simp only [dict_get, if_neg (Ne.symm h)]
      exact ih
    · rw [if_neg (show ¬ (a, b).1 = k from hak)]
      simp only [dict_get]
      rw [ih]

theorem dict_get_append_single_ne {β : Type} (d : List (Nat × β))
    (k k' : Nat) (v : β) (h : k' ≠ k) :
    dict_get (d ++ [(k, v)]) k' = dict_get d k' := by
  induction d with
  | nil => simp [dict_get, Ne.symm h]
  | cons p rest ih =>
    obtain ⟨a, b⟩ := p
    by_cases hak : a = k'
    · simp [dict_get, hak]
    · simp [dict_get, hak, ih]

/-- Updating key `k` does not change lookups at other keys. -/
theorem dict_get_set_ne {β : Type} (d : List (Nat × β)) (k k' : Nat) (v : β)
    (h : k' ≠ k) : dict_get (dict_set d k v) k' = dict_get d k' := by
  unfold dict_set
  split
  · exact dict_get_map_set_ne d k k' v h
  · exact dict_get_append_single_ne d k k' v h

/-- Updating key `k` makes lookup at `k` return the new value. -/
theorem dict_get_set_self {β : Type} (d : List (Nat × β)) (k : Nat) (v : β) :
    dict_get (dict_set d k v) k = some v := by
  induction d with
  | nil => simp [dict_set, dict_get]
  | cons p rest ih =>
    obtain ⟨a, b⟩ := p
    by_cases hak : a = k
    · subst hak
      simp [dict_set, dict_get]
    · cases hrest : (dict_get rest k).isSome with
      | true =>
        have hd : dict_set ((a, b) :: rest) k v
            = (a, b) :: rest.map (fun p => if p.1 = k then (k, v) else p) := by
          simp [dict_set, dict_get, hak, hrest]
        have hr : dict_set rest k v
            = rest.map (fun p => if p.1 = k then (k, v) else p) := by
          simp [dict_set, hrest]
        rw [hd]
        simp only [dict_get, hak, if_false]
        rw [← hr]
        exact ih
      | false =>
        have hd : dict_set ((a, b) :: rest) k v = (a, b) :: (rest ++ [(k, v)]) := by
          simp [dict_set, dict_get, hak, hrest]
        have hr : dict_set rest k v = rest ++ [(k, v)] := by
          simp [dict_set, hrest]
        rw [hd]
        simp only [dict_get, hak, if_false]
        rw [← hr]
        exact ih

/-- Deleting key `k` removes it from the dictionary. -/
theorem dict_get_del_self {β : Type} (d : List (Nat × β)) (k : Nat) :
    dict_get (dict_del d k) k = none := by
  induction d with
  | nil => rfl
  | cons p rest ih =>
    obtain ⟨a, b⟩ := p
    simp only [dict_del, List.filter_cons] at ih ⊢
    by_cases hak : a = k
    · simpa [hak] using ih
    · simpa [hak, dict_get] using ih

/-- On any selection, `weighted_choice` only returns list members. -/
theorem weighted_choice_mem {α : Type} {items : List α} {w : α → ℚ}
    {g : Rng} {a : α} (h : (weighted_choice items w g).1 = some a) :
    a ∈ items := by
  simp only [weighted_choice, rand_q] at h
  exact List.get?_mem h

/-- The per-employee event history: the sublist of generated events
carrying a given employee id, in generation order. -/
def hist (emp_id : Nat) (evs : List EmployeeEvent) : List EmployeeEvent :=
  evs.filter (fun e => e.employee_id == emp_id)

theorem hist_append (emp_id : Nat) (evs : List EmployeeEvent)
    (e : EmployeeEvent) :
    hist emp_id (evs ++ [e]) =
      hist emp_id evs ++ if e.employee_id = emp_id then [e] else [] := by
  simp only [hist, List.filter_append]
  congr 1
  by_cases h : e.employee_id = emp_id
  · simp [List.filter_cons, h]
  · simp [List.filter_cons, h]

theorem hist_nil_of_big (emp_id : Nat) (evs : List EmployeeEvent)
    (h : ∀ e ∈ evs, e.employee_id < emp_id) : hist emp_id evs = [] := by
  simp only [hist, List.filter_eq_nil_iff]
  intro e he
  have := h e he
  simp only [beq_iff_eq]
  omega

theorem hist_sub (emp_id : Nat) (evs : List EmployeeEvent) :
    ∀ e ∈ hist emp_id evs, e ∈ evs := by
  intro e he
  exact List.mem_of_mem_filter he

theorem mem_of_getLast_opt {α : Type} {l : List α} {a : α}
    (h : l.getLast? = some a) : a ∈ l := by
  rcases l.eq_nil_or_concat with rfl | ⟨t, b, rfl⟩
  · simp at h
  · rw [List.concat_eq_append] at h ⊢
    rw [List.getLast?_concat] at h
    cases h
    simp

theorem range_one_concat (n : Nat) :
    List.range' 1 (n + 1) = List.range' 1 n ++ [n + 1] := by
  rw [List.range'_concat]
  simp [Nat.add_comm]

/-- If the values of `f` along `l` are `1, 2, ..., |l|`, the last entry
has value `|l|`. -/
theorem map_range_getLast {α : Type} (f : α → Nat) (l : List α) (e : α)
    (hmap : l.map f = List.range' 1 l.length)
    (hlast : l.getLast? = some e) : f e = l.length := by
  rcases l.eq_nil_or_concat with rfl | ⟨t, b, rfl⟩
  · simp at hlast
  · rw [List.concat_eq_append] at hlast hmap ⊢
    rw [List.getLast?_concat] at hlast
    obtain rfl : b = e := by injection hlast
    rw [List.map_append, List.length_append] at hmap
    simp only [List.map_cons, List.map_nil, List.length_cons,
      List.length_nil, Nat.add_zero] at hmap
    rw [range_one_concat] at hmap
    have hlen : (t.map f).length = (List.range' 1 t.length).length := by
      simp
    have h2 := (List.append_inj hmap hlen).2
    simp only [List.cons.injEq] at h2
    simp [h2.1]

/-- The simulation invariant maintained by the monthly loop, over the
roster (`active_employees`), the event log (`all_events`) and the id
counter (`employee_seq`).  `bound` is an exclusive upper bound on the
effective months generated so far. -/
structure RunInv (bound : Nat) (act : List (Nat × EmployeeEvent))
    (evs : List EmployeeEvent) (seq : Nat) : Prop where
  act_id : ∀ i e, dict_get act i = some e → e.employee_id = i
  act_last : ∀ i e, dict_get act i = some e → (hist i evs).getLast? = some e
  act_live : ∀ i e, dict_get act i = some e →
    e.transaction_type ≠ "Termination"
  ev_id : ∀ e ∈ evs, 1 ≤ e.employee_id ∧ e.employee_id ≤ seq
  ev_month : ∀ e ∈ evs, e.eff_month < bound
  seq_contig : ∀ i, (hist i evs).map (fun e => e.sequence_number)
    = List.range' 1 (hist i evs).length
  head_hire : ∀ i e, (hist i evs).head? = some e →
    e.transaction_type = "Hire"
  term_last : ∀ i, ∀ e ∈ (hist i evs).dropLast,
    e.transaction_type ≠ "Termination"
  months_chain : ∀ i, (hist i evs).Chain'
    (fun a b => a.eff_month < b.eff_month)

theorem runinv_mono {bound bound' : Nat} {act : List (Nat × EmployeeEvent)}
    {evs : List EmployeeEvent} {seq : Nat}
    (h : RunInv bound act evs seq) (hb : bound ≤ bound') :
    RunInv bound' act evs seq :=
  ⟨h.act_id, h.act_last, h.act_live, h.ev_id,
   fun e he => lt_of_lt_of_le (h.ev_month e he) hb,
   h.seq_contig, h.head_hire, h.term_last, h.months_chain⟩

/-- Appending one cloned event for a currently active employee and
re-pointing the roster entry preserves the invariant. -/
theorem runinv_append_set {bound : Nat} {act : List (Nat × EmployeeEvent)}
    {evs : List EmployeeEvent} {seq : Nat}
    (hs : RunInv bound act evs seq) (i : Nat) (le e : EmployeeEvent)
    (hget : dict_get act i = some le)
    (hid : e.employee_id = i)
    (hseq : e.sequence_number = le.sequence_number + 1)
    (hmonth : le.eff_month < e.eff_month)
    (hbound : e.eff_month < bound)
    (htype : e.transaction_type ≠ "Termination") :
    RunInv bound (dict_set act i e) (evs ++ [e]) seq := by
  have hlast : (hist i evs).getLast? = some le := hs.act_last i le hget
  have hle_mem : le ∈ evs := hist_sub i evs le (mem_of_getLast_opt hlast)
  have hhist_i : hist i (evs ++ [e]) = hist i evs ++ [e] := by
    rw [hist_append]
    simp [hid]
  have hhist_ne : ∀ j, j ≠ i → hist j (evs ++ [e]) = hist j evs := by
    intro j hj
    rw [hist_append]
    simp [hid, Ne.symm hj]
  have hne_nil : hist i evs ≠ [] := by
    intro hnil
    rw [hnil] at hlast
    simp at hlast
  have hdecomp : ∀ x ∈ hist i evs, x ∈ (hist i evs).dropLast ∨ x = le := by
    intro x hx
    rcases (hist i evs).eq_nil_or_concat with hnil | ⟨t, b, hconcat⟩
    · rw [hnil] at hx
      simp at hx
    · rw [List.concat_eq_append] at hconcat
      rw [hconcat] at hx hlast ⊢
      rw [List.getLast?_concat] at hlast
      have hb : b = le := by injection hlast
      rw [List.dropLast_concat]
      rcases List.mem_append.mp hx with h1 | h1
      · exact Or.inl h1
      · simp at h1
        exact Or.inr (h1.trans hb)
  have hseqval : le.sequence_number = (hist i evs).length :=
    map_range_getLast _ _ _ (hs.seq_contig i) hlast
  refine ⟨?_, ?_, ?_, ?_, ?_, ?_, ?_, ?_, ?_⟩
  · intro j e' hg
    by_cases hji : j = i
    · subst hji
      rw [dict_get_set_self] at hg
      cases hg
      exact hid
    · rw [dict_get_set_ne _ _ _ _ hji] at hg
      exact hs.act_id j e' hg
  · intro j e' hg
    by_cases hji : j = i
    · subst hji
      rw [dict_get_set_self] at hg
      cases hg
      rw [hhist_i, List.getLast?_concat]
    · rw [dict_get_set_ne _ _ _ _ hji] at hg
      rw [hhist_ne j hji]
      exact hs.act_last j e' hg
  · intro j e' hg
    by_cases hji : j = i
    · subst hji
      rw [dict_get_set_self] at hg
      cases hg
      exact htype
    · rw [dict_get_set_ne _ _ _ _ hji] at hg
      exact hs.act_live j e' hg
  · intro x hx
    rcases List.mem_append.mp hx with h1 | h1
    · exact hs.ev_id x h1
    · simp at h1
      subst h1
      rw [hid]
      have h2 := hs.ev_id le hle_mem
      have h3 := hs.act_id i le hget
      omega
  · intro x hx
    rcases List.mem_append.mp hx with h1 | h1
    · exact hs.ev_month x h1
    · simp at h1
      subst h1
      exact hbound
  · intro j
    by_cases hji : j = i
    · subst hji
      rw [hhist_i, List.map_append, List.length_append]
      simp only [List.map_cons, List.map_nil, List.length_cons,
        List.length_nil, Nat.add_zero]
      rw [hs.seq_contig j, hseq, hseqval, range_one_concat]
    · rw [hhist_ne j hji]
      exact hs.seq_contig j
  · intro j e' hh
    by_cases hji : j = i
    · subst hji
      rw [hhist_i] at hh
      rcases hx : hist j evs with _ | ⟨a, t⟩
      · exact absurd hx hne_nil
      · rw [hx, List.cons_append, List.head?_cons] at hh
        cases hh
        exact hs.head_hire j e' (by rw [hx, List.head?_cons])
    · rw [hhist_ne j hji] at hh
      exact hs.head_hire j e' hh
  · intro j x hx
    by_cases hji : j = i
    · subst hji
      rw [hhist_i, List.dropLast_concat] at hx
      rcases hdecomp x hx with h1 | h1
      · exact hs.term_last j x h1
      · rw [h1]
        exact hs.act_live j le hget
    · rw [hhist_ne j hji] at hx
      exact hs.term_last j x hx
  · intro j
    by_cases hji : j = i
    · subst hji
      rw [hhist_i]
      refine List.chain'_append.mpr ⟨hs.months_chain j, List.chain'_singleton e, ?_⟩
      intro x hxl y hy
      rw [hlast] at hxl
      simp only [Option.mem_def, Option.some.injEq] at hxl
      simp only [List.head?_cons, Option.mem_def, Option.some.injEq] at hy
      rw [← hxl, ← hy]
      exact hmonth
    · rw [hhist_ne j hji]
      exact hs.months_chain j

/-- Appending a Termination event for an active employee and removing
the roster entry preserves the invariant. -/
theorem runinv_append_del {bound : Nat} {act : List (Nat × EmployeeEvent)}
    {evs : List EmployeeEvent} {seq : Nat}
    (hs : RunInv bound act evs seq) (i : Nat) (le e : EmployeeEvent)
    (hget : dict_get act i = some le)
    (hid : e.employee_id = i)
    (hseq : e.sequence_number = le.sequence_number + 1)
    (hmonth : le.eff_month < e.eff_month)
    (hbound : e.eff_month < bound) :
    RunInv bound (dict_del act i) (evs ++ [e]) seq := by
  have hlast : (hist i evs).getLast? = some le := hs.act_last i le hget
  have hle_mem : le ∈ evs := hist_sub i evs le (mem_of_getLast_opt hlast)
  have hhist_i : hist i (evs ++ [e]) = hist i evs ++ [e] := by
    rw [hist_append]
    simp [hid]
  have hhist_ne : ∀ j, j ≠ i → hist j (evs ++ [e]) = hist j evs := by
    intro j hj
    rw [hist_append]
    simp [hid, Ne.symm hj]
  have hne_nil : hist i evs ≠ [] := by
    intro hnil
    rw [hnil] at hlast
    simp at hlast
  have hdecomp : ∀ x ∈ hist i evs, x ∈ (hist i evs).dropLast ∨ x = le := by
    intro x hx
    rcases (hist i evs).eq_nil_or_concat with hnil | ⟨t, b, hconcat⟩
    · rw [hnil] at hx
      simp at hx
    · rw [List.concat_eq_append] at hconcat
      rw [hconcat] at hx hlast ⊢
      rw [List.getLast?_concat] at hlast
      have hb : b = le := by injection hlast
      rw [List.dropLast_concat]
      rcases List.mem_append.mp hx with h1 | h1
      · exact Or.inl h1
      · simp at h1
        exact Or.inr (h1.trans hb)
  have hseqval : le.sequence_number = (hist i evs).length :=
    map_range_getLast _ _ _ (hs.seq_contig i) hlast
  refine ⟨?_, ?_, ?_, ?_, ?_, ?_, ?_, ?_, ?_⟩
  · intro j e' hg
    by_cases hji : j = i
    · subst hji
      rw [dict_get_del_self] at hg
      cases hg
    · rw [dict_get_del_ne _ _ _ hji] at hg
      exact hs.act_id j e' hg
  · intro j e' hg
    by_cases hji : j = i
    · subst hji
      rw [dict_get_del_self] at hg
      cases hg
    · rw [dict_get_del_ne _ _ _ hji] at hg
      rw [hhist_ne j hji]
      exact hs.act_last j e' hg
  · intro j e' hg
    by_cases hji : j = i
    · subst hji
      rw [dict_get_del_self] at hg
      cases hg
    · rw [dict_get_del_ne _ _ _ hji] at hg
      exact hs.act_live j e' hg
  · intro x hx
    rcases List.mem_append.mp hx with h1 | h1
    · exact hs.ev_id x h1
    · simp at h1
      subst h1
      rw [hid]
      have h2 := hs.ev_id le hle_mem
      have h3 := hs.act_id i le hget
      omega
  · intro x hx
    rcases List.mem_append.mp hx with h1 | h1
    · exact hs.ev_month x h1
    · simp at h1
      subst h1
      exact hbound
  · intro j
    by_cases hji : j = i
    · subst hji
      rw [hhist_i, List.map_append, List.length_append]
      simp only [List.map_cons, List.map_nil, List.length_cons,
        List.length_nil, Nat.add_zero]
      rw [hs.seq_contig j, hseq, hseqval, range_one_concat]
    · rw [hhist_ne j hji]
      exact hs.seq_contig j
  · intro j e' hh
    by_cases hji : j = i
    · subst hji
      rw [hhist_i] at hh
      rcases hx : hist j evs with _ | ⟨a, t⟩
      · exact absurd hx hne_nil
      · rw [hx, List.cons_append, List.head?_cons] at hh
        cases hh
        exact hs.head_hire j e' (by rw [hx, List.head?_cons])
    · rw [hhist_ne j hji] at hh
      exact hs.head_hire j e' hh
  · intro j x hx
    by_cases hji : j = i
    · subst hji
      rw [hhist_i, List.dropLast_concat] at hx
      rcases hdecomp x hx with h1 | h1
      · exact hs.term_last j x h1
      · rw [h1]
        exact hs.act_live j le hget
    · rw [hhist_ne j hji] at hx
      exact hs.term_last j x hx
  · intro j
    by_cases hji : j = i
    · subst hji
      rw [hhist_i]
      refine List.chain'_append.mpr ⟨hs.months_chain j, List.chain'_singleton e, ?_⟩
      intro x hxl y hy
      rw [hlast] at hxl
      simp only [Option.mem_def, Option.some.injEq] at hxl
      simp only [List.head?_cons, Option.mem_def, Option.some.injEq] at hy
      rw [← hxl, ← hy]
      exact hmonth
    · rw [hhist_ne j hji]
      exact hs.months_chain j

/-- Appending a Hire event for the freshly allocated id and adding the
roster entry preserves the invariant (with the counter advanced). -/
theorem runinv_append_fresh {bound : Nat} {act : List (Nat × EmployeeEvent)}
    {evs : List EmployeeEvent} {seq : Nat}
    (hs : RunInv bound act evs seq) (e : EmployeeEvent)
    (hid : e.employee_id = seq + 1)
    (hseq : e.sequence_number = 1)
    (hbound : e.eff_month < bound)
    (htype : e.transaction_type = "Hire") :
    RunInv bound (dict_set act (seq + 1) e) (evs ++ [e]) (seq + 1) := by
  have hfresh : hist (seq + 1) evs = [] :=
    hist_nil_of_big _ _ (fun x hx =>
      Nat.lt_succ_of_le (hs.ev_id x hx).2)
  have hnotype : e.transaction_type ≠ "Termination" := by
    rw [htype]
    decide
  have hactnone : dict_get act (seq + 1) = none := by
    cases hg : dict_get act (seq + 1) with
    | none => rfl
    | some le =>
      have := hs.act_last _ le hg
      rw [hfresh] at this
      simp at this
  have hhist_i : hist (seq + 1) (evs ++ [e]) = [e] := by
    rw [hist_append, hfresh]
    simp [hid]
  have hhist_ne : ∀ j, j ≠ seq + 1 → hist j (evs ++ [e]) = hist j evs := by
    intro j hj
    rw [hist_append]
    simp [hid, Ne.symm hj]
  refine ⟨?_, ?_, ?_, ?_, ?_, ?_, ?_, ?_, ?_⟩
  · intro j e' hg
    by_cases hji : j = seq + 1
    · subst hji
      rw [dict_get_set_self] at hg
      cases hg
      exact hid
    · rw [dict_get_set_ne _ _ _ _ hji] at hg
      exact hs.act_id j e' hg
  · intro j e' hg
    by_cases hji : j = seq + 1
    · subst hji
      rw [dict_get_set_self] at hg
      cases hg
      rw [hhist_i]
      rfl
    · rw [dict_get_set_ne _ _ _ _ hji] at hg
      rw [hhist_ne j hji]
      exact hs.act_last j e' hg
  · intro j e' hg
    by_cases hji : j = seq + 1
    · subst hji
      rw [dict_get_set_self] at hg
      cases hg
      exact hnotype
    · rw [dict_get_set_ne _ _ _ _ hji] at hg
      exact hs.act_live j e' hg
  · intro x hx
    rcases List.mem_append.mp hx with h1 | h1
    · have := hs.ev_id x h1
      omega
    · simp at h1
      subst h1
      rw [hid]
      omega
  · intro x hx
    rcases List.mem_append.mp hx with h1 | h1
    · exact hs.ev_month x h1
    · simp at h1
      subst h1
      exact hbound
  · intro j
    by_cases hji : j = seq + 1
    · subst hji
      rw [hhist_i]
      simp [hseq]
    · rw [hhist_ne j hji]
      exact hs.seq_contig j
  · intro j e' hh
    by_cases hji : j = seq + 1
    · subst hji
      rw [hhist_i, List.head?_cons] at hh
      cases hh
      exact htype
    · rw [hhist_ne j hji] at hh
      exact hs.head_hire j e' hh
  · intro j x hx
    by_cases hji : j = seq + 1
    · subst hji
      rw [hhist_i] at hx
      simp at hx
    · rw [hhist_ne j hji] at hx
      exact hs.term_last j x hx
  · intro j
    by_cases hji : j = seq + 1
    · subst hji
      rw [hhist_i]
      exact List.chain'_singleton e
    · rw [hhist_ne j hji]
      exact hs.months_chain j

set_option maxHeartbeats 1600000 in
/-- The reason-code dispatch never changes the identity, sequencing,
date, or transaction-type fields stamped before it. -/
theorem career_override_core (cfg : SimConfig) (ref : RefData)
    (m eff_day : Nat) (act : CareerAction) (le ev : EmployeeEvent) (g : Rng) :
    ((career_override cfg ref m eff_day act le ev g).1.employee_id,
     (career_override cfg ref m eff_day act le ev g).1.sequence_number,
     (career_override cfg ref m eff_day act le ev g).1.eff_month,
     (career_override cfg ref m eff_day act le ev g).1.transaction_type)
    = (ev.employee_id, ev.sequence_number, ev.eff_month,
       ev.transaction_type) := by
  simp only [career_override]
  by_cases h1 : act.reason_code = "CHG_PROMO"
  · rw [if_pos h1]
    repeat' split
    all_goals rfl
  · rw [if_neg h1]
    by_cases h2 : act.reason_code = "CHG_DEMO"
    · rw [if_pos h2]
      repeat' split
      all_goals rfl
    · rw [if_neg h2]
      by_cases h3 : act.reason_code = "CHG_LAT"
      · rw [if_pos h3]
        repeat' split
        all_goals rfl
      · rw [if_neg h3]
        by_cases h4 : act.reason_code = "CHG_XFER"
        · rw [if_pos h4]
          repeat' split
          all_goals rfl
        · rw [if_neg h4]
          by_cases h5 : act.reason_code = "DAT_LOC"
          · rw [if_pos h5]
            repeat' split
            all_goals rfl
          · rw [if_neg h5]
            by_cases h6 : act.reason_code = "DAT_ORG"
            · rw [if_pos h6]
              repeat' split
              all_goals rfl
            · rw [if_neg h6]
              by_cases h7 : act.reason_code = "LOA_GEN"
              · rw [if_pos h7]
              · rw [if_neg h7]
                by_cases h8 : act.reason_code = "RFL_GEN"
                · rw [if_pos h8]
                · rw [if_neg h8]

theorem career_override_fields (cfg : SimConfig) (ref : RefData)
    (m eff_day : Nat) (act : CareerAction) (le ev : EmployeeEvent) (g : Rng) :
    (career_override cfg ref m eff_day act le ev g).1.employee_id
        = ev.employee_id ∧
    (career_override cfg ref m eff_day act le ev g).1.sequence_number
        = ev.sequence_number ∧
    (career_override cfg ref m eff_day act le ev g).1.eff_month
        = ev.eff_month ∧
    (career_override cfg ref m eff_day act le ev g).1.transaction_type
        = ev.transaction_type := by
  have hcore := career_override_core cfg ref m eff_day act le ev g
  simp only [Prod.mk.injEq] at hcore
  exact hcore

/-- `term_one` on an active employee with an older last event: append
one Termination clone and drop the roster entry. -/
theorem term_one_shape (cfg : SimConfig) (m : Nat) (s : SimState) (i : Nat)
    (le : EmployeeEvent) (hget : dict_get s.active_employees i = some le)
    (hm : ¬ le.eff_month = m) :
    ∃ e g', term_one cfg m s i =
      { s with
        gen := g', all_events := s.all_events ++ [e],
        active_employees := dict_del s.active_employees i } ∧
      e.employee_id = le.employee_id ∧
      e.sequence_number = le.sequence_number + 1 ∧
      e.eff_month = m ∧ e.transaction_type = "Termination" := by
  simp only [term_one, hget, if_neg hm]
  exact ⟨_, _, rfl, rfl, rfl, rfl, rfl⟩

theorem hire_one_shape (cfg : SimConfig) (ref : RefData) (m : Nat)
    (s : SimState) :
    ∃ e, (hire_one cfg ref m s).employee_seq = s.employee_seq + 1 ∧
      (hire_one cfg ref m s).all_events = s.all_events ++ [e] ∧
      (hire_one cfg ref m s).active_employees
        = dict_set s.active_employees (s.employee_seq + 1) e ∧
      e.employee_id = s.employee_seq + 1 ∧ e.sequence_number = 1 ∧
      e.eff_month = m ∧ e.transaction_type = "Hire" :=
  ⟨_, rfl, rfl, rfl, rfl, rfl, rfl, rfl⟩

theorem apply_comp_change_shape (cfg : SimConfig) (m i : Nat) (s : SimState)
    (le : EmployeeEvent) (hget : dict_get s.active_employees i = some le) :
    ∃ e g', apply_comp_change cfg m i s =
      { s with
        gen := g', all_events := s.all_events ++ [e],
        active_employees := dict_set s.active_employees i e } ∧
      e.employee_id = le.employee_id ∧
      e.sequence_number = le.sequence_number + 1 ∧
      e.eff_month = m ∧ e.transaction_type = "Data Change" := by
  simp only [apply_comp_change, hget]
  exact ⟨_, _, rfl, rfl, rfl, rfl, rfl⟩

/-- `term_one` preserves the invariant and the strict-month property of
the roster. -/
theorem runinv_term_one {bound m : Nat} (cfg : SimConfig) {s : SimState}
    (i : Nat)
    (hs : RunInv bound s.active_employees s.all_events s.employee_seq)
    (hstrict : ∀ j e, dict_get s.active_employees j = some e →
      e.eff_month < m)
    (hm : m < bound) :
    RunInv bound (term_one cfg m s i).active_employees
      (term_one cfg m s i).all_events (term_one cfg m s i).employee_seq ∧
    ∀ j e, dict_get (term_one cfg m s i).active_employees j = some e →
      e.eff_month < m := by
  cases hget : dict_get s.active_employees i with
  | none =>
    simp only [term_one, hget]
    exact ⟨hs, hstrict⟩
  | some le =>
    by_cases hmm : le.eff_month = m
    · simp only [term_one, hget, if_pos hmm]
      exact ⟨hs, hstrict⟩
    · obtain ⟨e, g', hshape, hid, hseq, hmon, htype⟩ :=
        term_one_shape cfg m s i le hget hmm
      rw [hshape]
      constructor
      · exact runinv_append_del hs i le e hget
          (hid.trans (hs.act_id i le hget)) hseq
          (by rw [hmon]; exact hstrict i le hget) (by rw [hmon]; exact hm)
      · intro j e' hg
        by_cases hji : j = i
        · subst hji
          rw [dict_get_del_self] at hg
          cases hg
        · rw [dict_get_del_ne _ _ _ hji] at hg
          exact hstrict j e' hg

/-- Folding `term_one` over any id list preserves the invariant. -/
theorem runinv_foldl_term {bound m : Nat} (cfg : SimConfig) :
    ∀ (ids : List Nat) (s : SimState),
      RunInv bound s.active_employees s.all_events s.employee_seq →
      (∀ j e, dict_get s.active_employees j = some e → e.eff_month < m) →
      m < bound →
      RunInv bound (ids.foldl (term_one cfg m) s).active_employees
        (ids.foldl (term_one cfg m) s).all_events
        (ids.foldl (term_one cfg m) s).employee_seq
  | [], _, hs, _, _ => hs
  | i :: t, s, hs, hstrict, hm => by
    have h1 := runinv_term_one cfg i hs hstrict hm
    simp only [List.foldl_cons]
    exact runinv_foldl_term cfg t (term_one cfg m s i) h1.1 h1.2 hm

/-- `_process_terminations` preserves the invariant when every roster
entry is strictly older than the processed month. -/
theorem runinv_process_terminations {bound m : Nat} (cfg : SimConfig)
    (count : Nat) (s : SimState)
    (hs : RunInv bound s.active_employees s.all_events s.employee_seq)
    (hstrict : ∀ j e, dict_get s.active_employees j = some e →
      e.eff_month < m)
    (hm : m < bound) :
    RunInv bound (process_terminations cfg m count s).active_employees
      (process_terminations cfg m count s).all_events
      (process_terminations cfg m count s).employee_seq := by
  simp only [process_terminations]
  split
  · exact hs
  · exact runinv_foldl_term cfg _ _ hs hstrict hm

/-- `_apply_comp_change` preserves the invariant when the subject's
roster entry is strictly older than the processed month. -/
theorem runinv_apply_comp_change {bound m : Nat} (cfg : SimConfig) (i : Nat)
    {s : SimState}
    (hs : RunInv bound s.active_employees s.all_events s.employee_seq)
    (hlt : ∀ e, dict_get s.active_employees i = some e → e.eff_month < m)
    (hm : m < bound) :
    RunInv bound (apply_comp_change cfg m i s).active_employees
      (apply_comp_change cfg m i s).all_events
      (apply_comp_change cfg m i s).employee_seq := by
  cases hget : dict_get s.active_employees i with
  | none =>
    simp only [apply_comp_change, hget]
    exact hs
  | some le =>
    obtain ⟨e, g', hshape, hid, hseq, hmon, htype⟩ :=
      apply_comp_change_shape cfg m i s le hget
    rw [hshape]
    exact runinv_append_set hs i le e hget (hid.trans (hs.act_id i le hget))
      hseq (by rw [hmon]; exact hlt le hget) (by rw [hmon]; exact hm)
      (by rw [htype]; decide)

/-- `_apply_career_action` preserves the invariant when the subject's
roster entry is strictly older than the month and the action is not a
termination. -/
theorem runinv_apply_career_action {bound m : Nat} (cfg : SimConfig)
    (ref : RefData) (i : Nat) (act : CareerAction) {s : SimState}
    (hs : RunInv bound s.active_employees s.all_events s.employee_seq)
    (hlt : ∀ e, dict_get s.active_employees i = some e → e.eff_month < m)
    (hm : m < bound)
    (hact : act.action ≠ "Termination") :
    RunInv bound (apply_career_action cfg ref m i act s).active_employees
      (apply_career_action cfg ref m i act s).all_events
      (apply_career_action cfg ref m i act s).employee_seq := by
  cases hget : dict_get s.active_employees i with
  | none =>
    simp only [apply_career_action, hget]
    exact hs
  | some le =>
    obtain ⟨d1, g1, ev1, g2, e', g3, hdate, hclone, hover, hshape⟩ :=
      apply_career_action_shape cfg ref m i act s le hget
    obtain ⟨entry, wid, g2', hcl⟩ := clone_event_fields le m d1 g1
    have hev1 : ev1 = { le with
        eff_month := m, eff_day := d1, entry_stamp := entry,
        transaction_wid := wid,
        sequence_number := le.sequence_number + 1 } := by
      have h12 := hclone.symm.trans hcl
      exact congrArg Prod.fst h12
    have hco := career_override_fields cfg ref m d1 act le
      (stamp_action act ev1) g2
    rw [hover] at hco
    have hid : e'.employee_id = i := by
      have h1 : e'.employee_id = (stamp_action act ev1).employee_id := hco.1
      rw [h1, stamp_action, hev1]
      exact hs.act_id i le hget
    have hseq : e'.sequence_number = le.sequence_number + 1 := by
      have h1 : e'.sequence_number = (stamp_action act ev1).sequence_number :=
        hco.2.1
      rw [h1, stamp_action, hev1]
    have hmon : e'.eff_month = m := by
      have h1 : e'.eff_month = (stamp_action act ev1).eff_month := hco.2.2.1
      rw [h1, stamp_action, hev1]
    have htype : e'.transaction_type ≠ "Termination" := by
      have h1 : e'.transaction_type = (stamp_action act ev1).transaction_type :=
        hco.2.2.2
      rw [h1, stamp_action]
      exact hact
    rw [hshape]
    exact runinv_append_set hs i le e' hget hid hseq
      (by rw [hmon]; exact hlt le hget) (by rw [hmon]; exact hm) htype

/-- The career draw preserves the invariant: any applied action comes
from the configured (non-terminating) action table. -/
theorem runinv_career_event_draw {bound m : Nat} (cfg : SimConfig)
    (ref : RefData) (i : Nat) {s : SimState}
    (hs : RunInv bound s.active_employees s.all_events s.employee_seq)
    (hlt : ∀ e, dict_get s.active_employees i = some e → e.eff_month < m)
    (hm : m < bound)
    (hacts : ∀ a ∈ cfg.career_actions, a.action ≠ "Termination") :
    RunInv bound (career_event_draw cfg ref m i s).active_employees
      (career_event_draw cfg ref m i s).all_events
      (career_event_draw cfg ref m i s).employee_seq := by
  by_cases hq : s.gen.qs s.gen.pos < 1 / cfg.avg_months_between_events
  · cases ha : (weighted_choice cfg.career_actions (fun x => x.weight)
        ⟨s.gen.qs, s.gen.ns, s.gen.pos + 1⟩).1 with
    | none =>
      have hpair : weighted_choice cfg.career_actions (fun x => x.weight)
          ⟨s.gen.qs, s.gen.ns, s.gen.pos + 1⟩ =
          (none, (weighted_choice cfg.career_actions (fun x => x.weight)
            ⟨s.gen.qs, s.gen.ns, s.gen.pos + 1⟩).2) := Prod.ext ha rfl
      have hced : career_event_draw cfg ref m i s =
          { s with
            gen := (weighted_choice cfg.career_actions
              (fun x => x.weight) ⟨s.gen.qs, s.gen.ns, s.gen.pos + 1⟩).2 } := by
        simp only [career_event_draw, rand_q]
        rw [if_pos hq, hpair]
      rw [hced]
      exact hs
    | some a =>
      have hamem : a ∈ cfg.career_actions := weighted_choice_mem ha
      have hpair : weighted_choice cfg.career_actions (fun x => x.weight)
          ⟨s.gen.qs, s.gen.ns, s.gen.pos + 1⟩ =
          (some a, (weighted_choice cfg.career_actions (fun x => x.weight)
            ⟨s.gen.qs, s.gen.ns, s.gen.pos + 1⟩).2) := Prod.ext ha rfl
      have hced : career_event_draw cfg ref m i s =
          apply_career_action cfg ref m i a
            { s with
              gen := (weighted_choice cfg.career_actions
                (fun x => x.weight) ⟨s.gen.qs, s.gen.ns, s.gen.pos + 1⟩).2 } := by
        simp only [career_event_draw, rand_q]
        rw [if_pos hq, hpair]
      rw [hced]
      exact runinv_apply_career_action cfg ref i a hs hlt hm (hacts a hamem)
  · have hced : career_event_draw cfg ref m i s =
        { s with
          gen := ⟨s.gen.qs, s.gen.ns, s.gen.pos + 1⟩ } := by
      simp only [career_event_draw, rand_q]
      rw [if_neg hq]
    rw [hced]
    exact hs

/-- The per-employee career pass preserves the invariant; when it
applies an event, the 3-month gate makes the last event strictly
older than the month. -/
theorem runinv_career_one {bound m : Nat} (cfg : SimConfig) (ref : RefData)
    {s : SimState} (i : Nat)
    (hs : RunInv bound s.active_employees s.all_events s.employee_seq)
    (hm : m < bound)
    (hacts : ∀ a ∈ cfg.career_actions, a.action ≠ "Termination") :
    RunInv bound (career_one cfg ref m s i).active_employees
      (career_one cfg ref m s i).all_events
      (career_one cfg ref m s i).employee_seq := by
  cases hget : dict_get s.active_employees i with
  | none =>
    simp only [career_one, hget]
    exact hs
  | some le =>
    by_cases hgate : (m : Int) - (le.eff_month : Int) < 3
    · simp only [career_one, hget]
      rw [if_pos hgate]
      exact hs
    · have hlt : ∀ e, dict_get s.active_employees i = some e →
          e.eff_month < m := by
        intro e he
        rw [hget] at he
        cases he
        omega
      by_cases hq1 : monthOf m = 1 ∨ monthOf m = 2 ∨ monthOf m = 3
      · by_cases hcomp : s.gen.qs s.gen.pos < cfg.annual_comp_change_rate / 3
        · have hco : career_one cfg ref m s i =
              apply_comp_change cfg m i
                { s with
                  gen := ⟨s.gen.qs, s.gen.ns, s.gen.pos + 1⟩ } := by
            simp only [career_one, hget, rand_q]
            rw [if_neg hgate, if_pos hq1, if_pos hcomp]
          rw [hco]
          exact runinv_apply_comp_change cfg i hs hlt hm
        · have hco : career_one cfg ref m s i =
              career_event_draw cfg ref m i
                { s with
                  gen := ⟨s.gen.qs, s.gen.ns, s.gen.pos + 1⟩ } := by
            simp only [career_one, hget, rand_q]
            rw [if_neg hgate, if_pos hq1, if_neg hcomp]
          rw [hco]
          exact runinv_career_event_draw cfg ref i hs hlt hm hacts
      · have hco : career_one cfg ref m s i =
            career_event_draw cfg ref m i s := by
          simp only [career_one, hget]
          rw [if_neg hgate, if_neg hq1]
        rw [hco]
        exact runinv_career_event_draw cfg ref i hs hlt hm hacts

/-- Folding the career pass over any id list preserves the
invariant. -/
theorem runinv_foldl_career {bound m : Nat} (cfg : SimConfig)
    (ref : RefData)
    (hacts : ∀ a ∈ cfg.career_actions, a.action ≠ "Termination") :
    ∀ (ids : List Nat) (s : SimState),
      RunInv bound s.active_employees s.all_events s.employee_seq →
      m < bound →
      RunInv bound (ids.foldl (career_one cfg ref m) s).active_employees
        (ids.foldl (career_one cfg ref m) s).all_events
        (ids.foldl (career_one cfg ref m) s).employee_seq
  | [], _, hs, _ => hs
  | i :: t, s, hs, hm => by
    simp only [List.foldl_cons]
    exact runinv_foldl_career cfg ref hacts t (career_one cfg ref m s i)
      (runinv_career_one cfg ref i hs hm hacts) hm

/-- `_process_career_events` preserves the invariant. -/
theorem runinv_process_career_events {bound m : Nat} (cfg : SimConfig)
    (ref : RefData) (s : SimState)
    (hs : RunInv bound s.active_employees s.all_events s.employee_seq)
    (hm : m < bound)
    (hacts : ∀ a ∈ cfg.career_actions, a.action ≠ "Termination") :
    RunInv bound (process_career_events cfg ref m s).active_employees
      (process_career_events cfg ref m s).all_events
      (process_career_events cfg ref m s).employee_seq := by
  simp only [process_career_events]
  exact runinv_foldl_career cfg ref hacts _ s hs hm

/-- One hire preserves the invariant: the new event carries the fresh
id, sequence number 1 and type Hire. -/
theorem runinv_hire_one {bound m : Nat} (cfg : SimConfig) (ref : RefData)
    {s : SimState}
    (hs : RunInv bound s.active_employees s.all_events s.employee_seq)
    (hm : m < bound) :
    RunInv bound (hire_one cfg ref m s).active_employees
      (hire_one cfg ref m s).all_events
      (hire_one cfg ref m s).employee_seq := by
  obtain ⟨e, hseq, hevs, hact, hid, hone, hmon, htype⟩ :=
    hire_one_shape cfg ref m s
  rw [hseq, hevs, hact]
  exact runinv_append_fresh hs e hid hone (by rw [hmon]; exact hm) htype

/-- Folding the hire pass preserves the invariant. -/
theorem runinv_foldl_hires {bound m : Nat} (cfg : SimConfig)
    (ref : RefData) :
    ∀ (l : List Nat) (s : SimState),
      RunInv bound s.active_employees s.all_events s.employee_seq →
      m < bound →
      RunInv bound
        (l.foldl (fun s _ => hire_one cfg ref m s) s).active_employees
        (l.foldl (fun s _ => hire_one cfg ref m s) s).all_events
        (l.foldl (fun s _ => hire_one cfg ref m s) s).employee_seq
  | [], _, hs, _ => hs
  | _ :: t, s, hs, hm => by
    simp only [List.foldl_cons]
    exact runinv_foldl_hires cfg ref t (hire_one cfg ref m s)
      (runinv_hire_one cfg ref hs hm) hm

/-- `_process_hires` preserves the invariant. -/
theorem runinv_process_hires {bound m : Nat} (cfg : SimConfig)
    (ref : RefData) (count : Nat) (s : SimState)
    (hs : RunInv bound s.active_employees s.all_events s.employee_seq)
    (hm : m < bound) :
    RunInv bound (process_hires cfg ref m count s).active_employees
      (process_hires cfg ref m count s).all_events
      (process_hires cfg ref m count s).employee_seq := by
  simp only [process_hires]
  exact runinv_foldl_hires cfg ref _ s hs hm

/-- One month of the driver loop advances the invariant's month
bound. -/
theorem runinv_step_month {m : Nat} (cfg : SimConfig) (ref : RefData)
    {s : SimState}
    (hs : RunInv m s.active_employees s.all_events s.employee_seq)
    (hacts : ∀ a ∈ cfg.career_actions, a.action ≠ "Termination") :
    RunInv (m + 1) (step_month cfg ref s m).active_employees
      (step_month cfg ref s m).all_events
      (step_month cfg ref s m).employee_seq := by
  have hm : m < m + 1 := Nat.lt_succ_self m
  have hs1 : RunInv (m + 1) s.active_employees s.all_events s.employee_seq :=
    runinv_mono hs (Nat.le_succ m)
  have hstrict : ∀ j e, dict_get s.active_employees j = some e →
      e.eff_month < m := by
    intro j e hg
    exact hs.ev_month e (hist_sub _ _ e (mem_of_getLast_opt (hs.act_last j e hg)))
  simp only [step_month]
  split
  · split
    · exact runinv_process_hires cfg ref _ _
        (runinv_process_career_events cfg ref _
          (runinv_process_terminations cfg _ _ hs1 hstrict hm) hm hacts) hm
    · exact runinv_process_career_events cfg ref _
        (runinv_process_terminations cfg _ _ hs1 hstrict hm) hm hacts
  · split
    · exact runinv_process_hires cfg ref _ _
        (runinv_process_career_events cfg ref _ hs1 hm hacts) hm
    · exact runinv_process_career_events cfg ref _ hs1 hm hacts

/-- The month loop carries the invariant from month `m` to month
`m + fuel`. -/
theorem runinv_run_months (cfg : SimConfig) (ref : RefData)
    (hacts : ∀ a ∈ cfg.career_actions, a.action ≠ "Termination") :
    ∀ (fuel m : Nat) (s : SimState),
      RunInv m s.active_employees s.all_events s.employee_seq →
      RunInv (m + fuel) (run_months cfg ref m fuel s).active_employees
        (run_months cfg ref m fuel s).all_events
        (run_months cfg ref m fuel s).employee_seq
  | 0, m, s, hs => by
    simpa [run_months] using hs
  | fuel + 1, m, s, hs => by
    simp only [run_months]
    have h2 := runinv_run_months cfg ref hacts fuel (m + 1)
      (step_month cfg ref s m) (runinv_step_month cfg ref hs hacts)
    have hmm : m + (fuel + 1) = m + 1 + fuel := by omega
    rw [hmm]
    exact h2

/-- The empty initial state satisfies the invariant at month 0. -/
theorem runinv_init (g : Rng) :
    RunInv 0 (init_state g).active_employees (init_state g).all_events
      (init_state g).employee_seq := by
  refine ⟨?_, ?_, ?_, ?_, ?_, ?_, ?_, ?_, ?_⟩
  · intro i e hg
    cases hg
  · intro i e hg
    cases hg
  · intro i e hg
    cases hg
  · intro e he
    cases he
  · intro e he
    cases he
  · intro i
    rfl
  · intro i e hh
    cases hh
  · intro i e he
    cases he
  · intro i
    exact List.chain'_nil

/-- The full timeline run satisfies the invariant at the final month
bound. -/
theorem runinv_generate_all (cfg : SimConfig) (ref : RefData) (g : Rng)
    (hacts : ∀ a ∈ cfg.career_actions, a.action ≠ "Termination") :
    RunInv cfg.total_months (generate_all cfg ref g).active_employees
      (generate_all cfg ref g).all_events
      (generate_all cfg ref g).employee_seq := by
  have h := runinv_run_months cfg ref hacts cfg.total_months 0 (init_state g)
    (runinv_init g)
  simpa [generate_all] using h

set_option maxRecDepth 4000 in
/-- None of the nine configured career actions is a Termination. -/
theorem realConfig_actions_nonterm :
    ∀ a ∈ realConfig.career_actions, a.action ≠ "Termination" := by
  decide

/-- C3: for every employee id, the events generated for that id by the
full timeline run, in generation order, have sequence numbers exactly
`1, 2, ..., n` (contiguous, no gaps), and the first of them — the one
with sequence number 1 — is the Hire event. -/
theorem c3_sequence_contiguous (ref : RefData) (g : Rng) (emp_id : Nat) :
    ((generate_all realConfig ref g).all_events.filter
        (fun e => e.employee_id == emp_id)).map (fun e => e.sequence_number)
      = List.range' 1 ((generate_all realConfig ref g).all_events.filter
        (fun e => e.employee_id == emp_id)).length ∧
    ∀ e, ((generate_all realConfig ref g).all_events.filter
        (fun e => e.employee_id == emp_id)).head? = some e →
      e.transaction_type = "Hire" := by
  have h := runinv_generate_all realConfig ref g realConfig_actions_nonterm
  exact ⟨h.seq_contig emp_id, h.head_hire emp_id⟩

/-- C4: a Termination event can only stand at the last position of an
employee's generated history — once a Termination is generated for an
id, no further event with that id is ever generated in the rest of the
run. -/
theorem c4_termination_terminal (ref : RefData) (g : Rng) (emp_id : Nat) :
    (((generate_all realConfig ref g).all_events.filter
        (fun e => e.employee_id == emp_id)).dropLast.all
      (fun e => e.transaction_type != "Termination")) = true := by
  have h := runinv_generate_all realConfig ref g realConfig_actions_nonterm
  rw [List.all_eq_true]
  intro e he
  simpa using h.term_last emp_id e he

set_option maxRecDepth 4000 in
/-- C10: within one employee's generated history the effective months
are strictly increasing — adjacent events fall in strictly later
calendar months, and hence (pairwise) no employee receives two events
in the same calendar month. -/
theorem c10_months_strictly_increase (ref : RefData) (g : Rng)
    (emp_id : Nat) :
    ((generate_all realConfig ref g).all_events.filter
        (fun e => e.employee_id == emp_id)).Chain'
      (fun a b => a.eff_month < b.eff_month) ∧
    ((generate_all realConfig ref g).all_events.filter
        (fun e => e.employee_id == emp_id)).Pairwise
      (fun a b => a.eff_month < b.eff_month) := by
  have h := runinv_generate_all realConfig ref g realConfig_actions_nonterm
  have hch := h.months_chain emp_id
  haveI : IsTrans EmployeeEvent (fun a b => a.eff_month < b.eff_month) :=
    ⟨fun a b c hab hbc => Nat.lt_trans hab hbc⟩
  exact ⟨hch, List.chain'_iff_pairwise.mp hch⟩
